import Mathlib

/-!
Verification development for the crypto-ai trading platform core.

The definitions below are a shallow embedding of the TypeScript sources:
numbers are modelled as exact rationals, JavaScript Maps as association
lists (or total functions with a default, where the source reads absent
keys as 0), thrown errors as `Except`, and the venue connectors reached by
the trading engine as oracle functions supplied in the engine state.
-/

namespace CryptoBot

/-! §1  MathUtils (packages/@cryptobot/indicators/src/utils/math-utils.ts) -/

namespace MathUtils

/-- calculateSMA: for each i from period-1 to length-1, the mean of the
slice values[i-period+1 .. i]; empty when the input is shorter than the period. -/
def calculateSMA (values : List ℚ) (period : ℕ) : List ℚ :=
  if values.length < period then []
  else (List.range (values.length - period + 1)).map
    (fun i => ((values.drop i).take period).sum / period)

/-- calculateEMA: seeded with the SMA of the first `period` points, then
ema = (value - prev) * multiplier + prev with multiplier = 2/(period+1). -/
def calculateEMA (values : List ℚ) (period : ℕ) : List ℚ :=
  if values.length < period then []
  else
    let multiplier : ℚ := 2 / (period + 1)
    let firstSMA : ℚ := (values.take period).sum / period
    List.scanl (fun prev v => (v - prev) * multiplier + prev) firstSMA (values.drop period)

/-- roundToDecimalPlaces via decimal.js toDecimalPlaces, whose default
rounding mode is ROUND_HALF_UP (ties rounded away from zero). -/
def roundToDecimalPlaces (value : ℚ) (decimalPlaces : ℕ) : ℚ :=
  let p : ℚ := (10 : ℚ) ^ decimalPlaces
  if 0 ≤ value then (⌊value * p + 1/2⌋ : ℚ) / p
  else -((⌊-value * p + 1/2⌋ : ℚ) / p)

/-- clamp(value, min, max). -/
def clamp (value lo hi : ℚ) : ℚ := min (max value lo) hi

end MathUtils

/-! §2  Indicators (packages/@cryptobot/indicators/src/indicators) -/

/-- One OHLCV price observation (IndicatorInput). -/
structure IndicatorInput where
  timestamp : ℤ
  openPrice : ℚ
  high : ℚ
  low : ℚ
  close : ℚ
  volume : ℚ
deriving DecidableEq, Repr, Inhabited

/-- Plain indicator result (timestamp and scalar value). -/
structure IndicatorResult where
  timestamp : ℤ
  value : ℚ
deriving DecidableEq, Repr, Inhabited

/-- The insufficiency error raised by BaseIndicator.validateInputs. -/
def insufficientDataMsg : String := "Insufficient data"

/-- SMAIndicator.calculate: validates length ≥ period, maps the rounded
rolling means onto the tail-aligned input timestamps. -/
def smaCalculate (period : ℕ) (inputs : List IndicatorInput) :
    Except String (List IndicatorResult) :=
  if inputs.length < period then .error insufficientDataMsg
  else
    let closePrices := inputs.map (fun x => x.close)
    let smaValues := MathUtils.calculateSMA closePrices period
    .ok ((List.range smaValues.length).map (fun i =>
      { timestamp := (inputs.getD (i + period - 1) default).timestamp
        value := MathUtils.roundToDecimalPlaces (smaValues.getD i 0) 8 }))

/-- EMAIndicator.calculate: validates length ≥ period, maps the rounded
EMA values onto the tail-aligned input timestamps. -/
def emaCalculate (period : ℕ) (inputs : List IndicatorInput) :
    Except String (List IndicatorResult) :=
  if inputs.length < period then .error insufficientDataMsg
  else
    let closePrices := inputs.map (fun x => x.close)
    let emaValues := MathUtils.calculateEMA closePrices period
    .ok ((List.range emaValues.length).map (fun i =>
      { timestamp := (inputs.getD (i + period - 1) default).timestamp
        value := MathUtils.roundToDecimalPlaces (emaValues.getD i 0) 8 }))

/-- RSI classification carried in each result's metadata. -/
inductive RSISignal
  | overbought
  | oversold
  | neutral
deriving DecidableEq, Repr, Inhabited

/-- RSI result: rounded value plus its overbought/oversold classification. -/
structure RSIResult where
  timestamp : ℤ
  value : ℚ
  signalClass : RSISignal
deriving DecidableEq, Repr, Inhabited

/-- RSIIndicator.calculateRSI: EMA-smoothed average gains and losses of the
per-step deltas; RSI = 100 - 100/(1+rs) clamped to the 0..100 range, with
RSI = 100 exactly when the average loss is 0. -/
def calculateRSIValues (prices : List ℚ) (period : ℕ) : List ℚ :=
  if prices.length < period + 1 then []
  else
    let changes := List.zipWith (fun c p => c - p) (prices.drop 1) prices
    let gains := changes.map (fun c => if 0 < c then c else 0)
    let losses := changes.map (fun c => if c < 0 then -c else 0)
    let avgGains := MathUtils.calculateEMA gains period
    let avgLosses := MathUtils.calculateEMA losses period
    List.zipWith
      (fun g l =>
        if l = 0 then 100
        else MathUtils.clamp (100 - 100 / (1 + g / l)) 0 100)
      avgGains avgLosses

/-- RSIIndicator.getSignal on the rounded RSI value. -/
def rsiGetSignal (overbought oversold rsiValue : ℚ) : RSISignal :=
  if overbought ≤ rsiValue then .overbought
  else if rsiValue ≤ oversold then .oversold
  else .neutral

/-- RSIIndicator.calculate: validates length ≥ period+1 and aligns each RSI
value with input index i + period. -/
def rsiCalculate (period : ℕ) (overbought oversold : ℚ)
    (inputs : List IndicatorInput) : Except String (List RSIResult) :=
  if inputs.length < period + 1 then .error insufficientDataMsg
  else
    let closePrices := inputs.map (fun x => x.close)
    let rsiValues := calculateRSIValues closePrices period
    .ok ((List.range rsiValues.length).map (fun i =>
      let rsiValue := MathUtils.roundToDecimalPlaces (rsiValues.getD i 0) 2
      { timestamp := (inputs.getD (i + period) default).timestamp
        value := rsiValue
        signalClass := rsiGetSignal overbought oversold rsiValue }))

/-- MACD crossover tag. -/
inductive Crossover
  | bullish
  | bearish
deriving DecidableEq, Repr, Inhabited

/-- MACD result: histogram as the main value plus line/signal/histogram
metadata and the optional crossover flag. -/
structure MACDResult where
  timestamp : ℤ
  value : ℚ
  macd : ℚ
  signal : ℚ
  histogram : ℚ
  crossover : Option Crossover
deriving DecidableEq, Repr, Inhabited

/-- MACD line: fast EMA minus slow EMA, with the fast EMA re-indexed by
startIndex = slowPeriod - fastPeriod so both reference the same input. -/
def macdLineOf (fastPeriod slowPeriod : ℕ) (closePrices : List ℚ) : List ℚ :=
  List.zipWith (fun f s => f - s)
    ((MathUtils.calculateEMA closePrices fastPeriod).drop (slowPeriod - fastPeriod))
    (MathUtils.calculateEMA closePrices slowPeriod)

/-- Signal line: EMA of the MACD line over signalPeriod. -/
def macdSignalLineOf (fastPeriod slowPeriod signalPeriod : ℕ)
    (closePrices : List ℚ) : List ℚ :=
  MathUtils.calculateEMA (macdLineOf fastPeriod slowPeriod closePrices) signalPeriod

/-- Histogram: MACD line minus signal line, the MACD line re-indexed by
macdStartIndex = macdLine.length - signalLine.length. -/
def macdHistogramOf (fastPeriod slowPeriod signalPeriod : ℕ)
    (closePrices : List ℚ) : List ℚ :=
  let macdLine := macdLineOf fastPeriod slowPeriod closePrices
  let signalLine := macdSignalLineOf fastPeriod slowPeriod signalPeriod closePrices
  List.zipWith (fun m s => m - s)
    (macdLine.drop (macdLine.length - signalLine.length)) signalLine

/-- Crossover detection at result index i: the raw previous histogram entry
is compared against the current rounded histogram value, and no flag is
produced on the first result. -/
def macdCrossoverFlag (hist : List ℚ) (i : ℕ) (histogramValue : ℚ) :
    Option Crossover :=
  if 0 < i then
    let prevHistogram := hist.getD (i - 1) 0
    if prevHistogram ≤ 0 ∧ 0 < histogramValue then some .bullish
    else if 0 ≤ prevHistogram ∧ histogramValue < 0 then some .bearish
    else none
  else none

/-- MACDIndicator.calculate: validates length ≥ slowPeriod+signalPeriod-1
and builds tail-aligned results carrying rounded values and crossovers. -/
def macdCalculate (fastPeriod slowPeriod signalPeriod : ℕ)
    (inputs : List IndicatorInput) : Except String (List MACDResult) :=
  let minLength := slowPeriod + signalPeriod - 1
  if inputs.length < minLength then .error insufficientDataMsg
  else
    let closePrices := inputs.map (fun x => x.close)
    let macdLine := macdLineOf fastPeriod slowPeriod closePrices
    let signalLine := macdSignalLineOf fastPeriod slowPeriod signalPeriod closePrices
    let hist := macdHistogramOf fastPeriod slowPeriod signalPeriod closePrices
    let macdStartIndex := macdLine.length - signalLine.length
    let resultStartIndex := inputs.length - hist.length
    .ok ((List.range hist.length).map (fun i =>
      let histogramValue := MathUtils.roundToDecimalPlaces (hist.getD i 0) 8
      { timestamp := (inputs.getD (resultStartIndex + i) default).timestamp
        value := histogramValue
        macd := MathUtils.roundToDecimalPlaces (macdLine.getD (macdStartIndex + i) 0) 8
        signal := MathUtils.roundToDecimalPlaces (signalLine.getD i 0) 8
        histogram := histogramValue
        crossover := macdCrossoverFlag hist i histogramValue }))

/-! §3  Canonical enums and order/signal records
(packages/@cryptobot/types/src/common/enums.ts, exchange/orders.ts) -/

inductive OrderSide
  | buy
  | sell
deriving DecidableEq, Repr, Inhabited

inductive OrderType
  | market
  | limit
  | stop
  | stopLimit
deriving DecidableEq, Repr, Inhabited

/-- Order status enum; the source value named `open` is rendered `opened`
because `open` is a Lean keyword. -/
inductive OrderStatus
  | pending
  | opened
  | filled
  | cancelled
  | rejected
  | expired
deriving DecidableEq, Repr, Inhabited

/-- Order record; Money fields are modelled by their numeric value. -/
structure Order where
  id : String
  symbol : String
  side : OrderSide
  type : OrderType
  size : ℚ
  price : ℚ
  status : OrderStatus
  filledSize : ℚ
  averageFillPrice : Option ℚ
  fees : ℚ
  exchangeOrderId : String
deriving DecidableEq, Repr, Inhabited

/-- OrderRequest as produced by a strategy. -/
structure OrderRequest where
  symbol : String
  side : OrderSide
  type : OrderType
  size : ℚ
  price : Option ℚ
deriving DecidableEq, Repr, Inhabited

/-- TradingSignal; confidence models the Percentage object's value and
createdAt is epoch milliseconds. -/
structure TradingSignal where
  symbol : String
  side : OrderSide
  strength : ℚ
  confidence : ℚ
  strategyId : String
  targetPrice : Option ℚ
  stopLoss : Option ℚ
  takeProfit : Option ℚ
  createdAt : ℤ
deriving DecidableEq, Repr, Inhabited

/-- Uniform connector response envelope (success flag with payload, or an
error string). -/
inductive ApiResponse (α : Type)
  | success (data : α)
  | failure (error : String)
deriving DecidableEq, Repr

/-- JavaScript `a || b` on an optional number: `undefined` and `0` both
fall back to the default. -/
def jsOrNum (o : Option ℚ) (d : ℚ) : ℚ :=
  match o with
  | some v => if v = 0 then d else v
  | none => d

/-! §4  Association-list model of the JavaScript Map
(get / set / delete with first-match semantics and insertion order). -/

/-- Map.get: the value at the first entry with the given key. -/
def mapFind? {α : Type} (l : List (String × α)) (k : String) : Option α :=
  match l with
  | [] => none
  | (k2, v) :: rest => if k2 = k then some v else mapFind? rest k

/-- Map.set: replaces the first entry with the given key in place, or
appends a new entry. -/
def mapSet {α : Type} (l : List (String × α)) (k : String) (v : α) :
    List (String × α) :=
  match l with
  | [] => [(k, v)]
  | (k2, v2) :: rest =>
      if k2 = k then (k2, v) :: rest else (k2, v2) :: mapSet rest k v

/-- Map.delete: removes the first entry with the given key. -/
def mapDelete {α : Type} (l : List (String × α)) (k : String) :
    List (String × α) :=
  match l with
  | [] => []
  | (k2, v2) :: rest =>
      if k2 = k then rest else (k2, v2) :: mapDelete rest k

/-! §5  SafetyEngine (packages/@cryptobot/trading/src/safety/safety-engine.ts) -/

inductive Severity
  | low
  | medium
  | high
  | critical
deriving DecidableEq, Repr, Inhabited

inductive SafetyCheckType
  | positionSize
  | dailyLossLimit
  | drawdownLimit
  | volatilityCheck
  | correlationCheck
deriving DecidableEq, Repr, Inhabited

structure SafetyCheck where
  type : SafetyCheckType
  isValid : Bool
  message : String
  severity : Severity
deriving DecidableEq, Repr, Inhabited

structure SafetyValidationContext where
  activeOrders : List Order
  dailyTrades : ℕ
  maxDailyTrades : ℕ
  portfolioValue : Option ℚ
  currentDrawdown : Option ℚ
deriving DecidableEq, Repr

structure SafetyValidationResult where
  isValid : Bool
  checks : List SafetyCheck
  reasons : List String
deriving DecidableEq, Repr

namespace SafetyEngine

/-- Hard-coded engine limit: 10 percent of portfolio. -/
def maxPositionSize : ℚ := 1 / 10

/-- Hard-coded engine limit: 20 percent max drawdown. -/
def maxDrawdown : ℚ := 1 / 5

/-- checkPositionSize: a placeholder order value of 1000 against the
context portfolio value (defaulting to 10000); high severity on failure.
The interpolated message strings of the source are elided. -/
def checkPositionSize (context : SafetyValidationContext) : SafetyCheck :=
  let portfolioValue := jsOrNum context.portfolioValue 10000
  let estimatedOrderValue : ℚ := 1000
  let positionSizeQuotient := estimatedOrderValue / portfolioValue
  let isValid := positionSizeQuotient ≤ maxPositionSize
  { type := .positionSize
    isValid := isValid
    message := if isValid then "Position size within limit"
               else "Position size exceeds maximum"
    severity := if isValid then .low else .high }

/-- checkDailyTradeLimit: medium severity on failure. -/
def checkDailyTradeLimit (context : SafetyValidationContext) : SafetyCheck :=
  let isValid := context.dailyTrades < context.maxDailyTrades
  { type := .dailyLossLimit
    isValid := isValid
    message := if isValid then "Daily trades within limit"
               else "Daily trade limit exceeded"
    severity := if isValid then .low else .medium }

/-- checkDrawdownLimit: critical severity on failure. -/
def checkDrawdownLimit (context : SafetyValidationContext) : SafetyCheck :=
  let currentDrawdown := jsOrNum context.currentDrawdown 0
  let isValid := currentDrawdown ≤ maxDrawdown
  { type := .drawdownLimit
    isValid := isValid
    message := if isValid then "Drawdown within limit"
               else "Drawdown exceeds maximum"
    severity := if isValid then .low else .critical }

/-- checkSignalConfidence: floor of 60; medium severity on failure. -/
def checkSignalConfidence (signal : TradingSignal) : SafetyCheck :=
  let minConfidence : ℚ := 60
  let isValid := minConfidence ≤ signal.confidence
  { type := .volatilityCheck
    isValid := isValid
    message := if isValid then "Signal confidence acceptable"
               else "Signal confidence below minimum"
    severity := if isValid then .low else .medium }

/-- checkOrderConflicts: an open order on the same symbol with the opposite
side fails the check at high severity. -/
def checkOrderConflicts (signal : TradingSignal)
    (context : SafetyValidationContext) : SafetyCheck :=
  let conflictingOrders := context.activeOrders.filter (fun order =>
    order.symbol == signal.symbol &&
    order.status == OrderStatus.opened &&
    order.side != signal.side)
  let isValid := conflictingOrders.length = 0
  { type := .correlationCheck
    isValid := isValid
    message := if isValid then "No conflicting orders found"
               else "Found conflicting orders"
    severity := if isValid then .low else .high }

/-- validateSignal: runs the five checks, and the aggregate verdict is the
absence of failed checks at critical and at high severity. -/
def validateSignal (signal : TradingSignal)
    (context : SafetyValidationContext) : SafetyValidationResult :=
  let checks := [
    checkPositionSize context,
    checkDailyTradeLimit context,
    checkDrawdownLimit context,
    checkSignalConfidence signal,
    checkOrderConflicts signal context]
  let criticalFailures := checks.filter
    (fun check => !check.isValid && check.severity == Severity.critical)
  let highSeverityFailures := checks.filter
    (fun check => !check.isValid && check.severity == Severity.high)
  { isValid := criticalFailures.length == 0 && highSeverityFailures.length == 0
    checks := checks
    reasons := (checks.filter (fun check => !check.isValid)).map
      (fun check => check.message) }

end SafetyEngine

/-! §6  SimulatorExchange
(packages/@cryptobot/exchanges/src/exchanges/simulator-exchange.ts).
Balances are modelled as a total function with default 0, matching the
source's `balances.get(c) || 0` reads. -/

/-- symbol.split with the separator, first component (base currency). -/
def symbolBase (symbol : String) : String :=
  (symbol.splitOn "-").getD 0 ""

/-- symbol.split with the separator, second component (quote currency). -/
def symbolQuote (symbol : String) : String :=
  (symbol.splitOn "-").getD 1 ""

structure OrderFill where
  orderId : String
  symbol : String
  side : OrderSide
  price : ℚ
  size : ℚ
  fees : ℚ
deriving DecidableEq, Repr, Inhabited

structure MarketEntry where
  price : ℚ
  volume : ℚ
deriving DecidableEq, Repr, Inhabited

/-- SimulatorState plus the exchange's marketData map (a sibling field of
the state object in the source class). -/
structure SimulatorState where
  balances : String → ℚ
  orders : List (String × Order)
  fills : List (String × List OrderFill)
  nextOrderId : ℕ
  marketData : List (String × MarketEntry)

namespace SimulatorExchange

/-- simulateOrderFill: records the zero-fee fill and moves quote against
base (deduct quote and add base on BUY, the inverse on SELL). -/
def simulateOrderFill (st : SimulatorState) (order : Order) (fillPrice : ℚ) :
    SimulatorState :=
  let fill : OrderFill :=
    { orderId := order.id, symbol := order.symbol, side := order.side,
      price := fillPrice, size := order.size, fees := 0 }
  let prevFills := (mapFind? st.fills order.id).getD []
  let st := { st with fills := mapSet st.fills order.id (prevFills ++ [fill]) }
  let baseCurrency := symbolBase order.symbol
  let quoteCurrency := symbolQuote order.symbol
  let orderValue := order.size * fillPrice
  if order.side = OrderSide.buy then
    let b1 := Function.update st.balances quoteCurrency
      (st.balances quoteCurrency - orderValue)
    let b2 := Function.update b1 baseCurrency (b1 baseCurrency + order.size)
    { st with balances := b2 }
  else
    let b1 := Function.update st.balances baseCurrency
      (st.balances baseCurrency - order.size)
    let b2 := Function.update b1 quoteCurrency (b1 quoteCurrency + orderValue)
    { st with balances := b2 }

/-- placeOrder: allocates an id, immediately fills market orders at the
simulated current price (zero fees), and leaves limit orders OPEN. -/
def placeOrder (st : SimulatorState) (orderRequest : OrderRequest) :
    SimulatorState × ApiResponse Order :=
  let orderId := "sim_order_" ++ toString st.nextOrderId
  let st := { st with nextOrderId := st.nextOrderId + 1 }
  match mapFind? st.marketData orderRequest.symbol with
  | none => (st, .failure "Symbol not found")
  | some data =>
    let currentPrice := data.price
    let isMarketOrder := orderRequest.type = OrderType.market
    let order : Order :=
      { id := orderId
        symbol := orderRequest.symbol
        side := orderRequest.side
        type := orderRequest.type
        size := orderRequest.size
        price := jsOrNum orderRequest.price currentPrice
        status := if isMarketOrder then .filled else .opened
        filledSize := if isMarketOrder then orderRequest.size else 0
        averageFillPrice := if isMarketOrder then some currentPrice else none
        fees := 0
        exchangeOrderId := orderId }
    let st := { st with orders := mapSet st.orders orderId order }
    let st := if isMarketOrder then simulateOrderFill st order currentPrice else st
    (st, .success order)

/-- cancelOrder: unconditionally sets the status of an existing order to
CANCELLED; unknown ids produce the error envelope. -/
def cancelOrder (st : SimulatorState) (orderId : String) :
    SimulatorState × ApiResponse Unit :=
  match mapFind? st.orders orderId with
  | none => (st, .failure "Order not found")
  | some order =>
    let cancelledOrder := { order with status := OrderStatus.cancelled }
    ({ st with orders := mapSet st.orders orderId cancelledOrder }, .success ())

/-- Market BUY request, as the trading engine's strategies construct it. -/
def marketBuy (symbol : String) (size : ℚ) : OrderRequest :=
  { symbol := symbol, side := .buy, type := .market, size := size, price := none }

/-- Market SELL request. -/
def marketSell (symbol : String) (size : ℚ) : OrderRequest :=
  { symbol := symbol, side := .sell, type := .market, size := size, price := none }

end SimulatorExchange

/-! §7  RSI strategy
(packages/@cryptobot/trading/src/strategies/rsi-strategy.ts and
base-strategy.ts).  The mutable strategy object is modelled as a state
record; the ambient wall clock read by `new Date()` is passed explicitly. -/

/-- Risk parameters consulted by BaseStrategy.checkRiskParameters; the
Percentage objects are modelled by their numeric value. -/
structure RiskParameters where
  maxPositionSize : ℚ
  maxDailyLoss : Option ℚ
  stopLossPercentage : Option ℚ
  takeProfitPercentage : Option ℚ
deriving DecidableEq, Repr

/-- RSIStrategyParameters after the constructor's defaulting. -/
structure RSIStrategyParameters where
  rsiPeriod : ℕ
  oversold : ℚ
  overbought : ℚ
  minConfidence : ℚ
deriving DecidableEq, Repr

/-- The strategy instance: configuration plus the mutable context
(price window, owned RSI indicator results, last emitted signal). -/
structure RSIStrategyState where
  strategyId : String
  strategyIsActive : Bool
  parameters : RSIStrategyParameters
  riskParameters : RiskParameters
  symbol : String
  marketData : List IndicatorInput
  rsiResults : List RSIResult
  lastSignal : Option TradingSignal
deriving DecidableEq, Repr

namespace RSIStrategy

/-- BaseStrategy.getCurrentPrice: close of the latest window point. -/
def getCurrentPrice (st : RSIStrategyState) : Option ℚ :=
  match st.marketData.getLast? with
  | none => none
  | some point => some point.close

/-- Truthiness of an optional price argument in createSignal: JavaScript
drops both absent and zero prices. -/
def jsOptPrice (o : Option ℚ) : Option ℚ :=
  match o with
  | some p => if p = 0 then none else some p
  | none => none

/-- BaseStrategy.createSignal: clamps strength to 0..1 and confidence to
0..100 and stamps the signal with the current time. -/
def createSignal (st : RSIStrategyState) (now : ℤ) (side : OrderSide)
    (strength confidence : ℚ)
    (targetPrice stopLoss takeProfit : Option ℚ) : TradingSignal :=
  { symbol := st.symbol
    side := side
    strength := max 0 (min 1 strength)
    confidence := max 0 (min 100 confidence)
    strategyId := st.strategyId
    targetPrice := jsOptPrice targetPrice
    stopLoss := jsOptPrice stopLoss
    takeProfit := jsOptPrice takeProfit
    createdAt := now }

/-- RSIStrategy.generateSignal: BUY on an oversold classification at or
below the floor, SELL on an overbought classification at or above the
ceiling, each gated by the confidence floor. -/
def generateSignal (st : RSIStrategyState) (now : ℤ) : Option TradingSignal :=
  match st.rsiResults.getLast? with
  | none => none
  | some rsiResult =>
    let rsiValue := rsiResult.value
    match getCurrentPrice st with
    | none => none
    | some currentPrice =>
      if rsiResult.signalClass = RSISignal.oversold ∧
          rsiValue ≤ st.parameters.oversold then
        let strength := (st.parameters.oversold - rsiValue) / st.parameters.oversold
        let confidence := min 95 (60 + (st.parameters.oversold - rsiValue) * 2)
        if st.parameters.minConfidence ≤ confidence then
          some (createSignal st now .buy strength confidence
            (some (currentPrice * (105 / 100)))
            (some (currentPrice * (95 / 100)))
            (some (currentPrice * (110 / 100))))
        else none
      else if rsiResult.signalClass = RSISignal.overbought ∧
          st.parameters.overbought ≤ rsiValue then
        let strength := (rsiValue - st.parameters.overbought) /
          (100 - st.parameters.overbought)
        let confidence := min 95 (60 + (rsiValue - st.parameters.overbought) * 2)
        if st.parameters.minConfidence ≤ confidence then
          some (createSignal st now .sell strength confidence
            (some (currentPrice * (95 / 100)))
            (some (currentPrice * (105 / 100)))
            (some (currentPrice * (90 / 100))))
        else none
      else none

/-- BaseStrategy.checkRiskParameters: the stop-loss and take-profit
distances, as fractions of the current price, must not exceed the
configured limits. -/
def checkRiskParameters (st : RSIStrategyState) (signal : TradingSignal) :
    Bool :=
  match getCurrentPrice st with
  | none => false
  | some currentPrice =>
    let stopLossOk :=
      match signal.stopLoss, st.riskParameters.stopLossPercentage with
      | some stopLossPrice, some limit =>
          ¬(limit / 100 < |currentPrice - stopLossPrice| / currentPrice)
      | _, _ => true
    let takeProfitOk :=
      match signal.takeProfit, st.riskParameters.takeProfitPercentage with
      | some takeProfitPrice, some limit =>
          ¬(limit / 100 < |takeProfitPrice - currentPrice| / currentPrice)
      | _, _ => true
    stopLossOk && takeProfitOk

/-- The 30-minute reversal cooldown, in milliseconds. -/
def minCooldown : ℤ := 30 * 60 * 1000

/-- RSIStrategy.validateSignal: confidence floor, then the cooldown on
directional reversals against the last signal, then the risk limits. -/
def validateSignal (st : RSIStrategyState) (signal : TradingSignal) : Bool :=
  if signal.confidence < st.parameters.minConfidence then false
  else
    match st.lastSignal with
    | some lastSignal =>
      let timeDiff := signal.createdAt - lastSignal.createdAt
      if timeDiff < minCooldown ∧ lastSignal.side ≠ signal.side then false
      else checkRiskParameters st signal
    | none => checkRiskParameters st signal

/-- BaseStrategy.run: inactive or empty-window strategies yield nothing;
otherwise a generated signal is returned and recorded as lastSignal only
if it passes validateSignal. -/
def run (st : RSIStrategyState) (now : ℤ) :
    RSIStrategyState × Option TradingSignal :=
  if ¬st.strategyIsActive ∨ st.marketData.isEmpty then (st, none)
  else
    match generateSignal st now with
    | some signal =>
      if validateSignal st signal then
        ({ st with lastSignal := some signal }, some signal)
      else (st, none)
    | none => (st, none)

end RSIStrategy

/-! §8  TradingEngine
(packages/@cryptobot/trading/src/engine/trading-engine.ts).  Each venue
connector is an oracle record of response functions, so theorems quantify
over every possible connector behaviour.  Emitted events and the cancel
calls issued to connectors are collected as explicit traces. -/

structure EngineMetrics where
  totalSignals : ℕ
  executedTrades : ℕ
  rejectedSignals : ℕ
  activeStrategies : ℕ
  totalPnL : ℚ
  successRate : ℚ
deriving DecidableEq, Repr

structure TradingEngineConfig where
  maxConcurrentOrders : ℕ
  maxDailyTrades : ℕ
  emergencyStopLoss : ℚ
  enablePaperTrading : Bool
deriving DecidableEq, Repr

/-- A connector as the engine observes it: each operation either succeeds
with a payload or fails. -/
structure ExchangeModel where
  placeOrderFn : OrderRequest → Option Order
  cancelOrderFn : String → Bool
  getOrderFn : String → Option Order

/-- The engine events relevant to the verified operations. -/
inductive EngineEvent
  | signalRejected
  | paperTradeExecuted
  | tradeExecuted (orderId : String)
  | tradeRejected
  | signalProcessingError
  | orderCancelError (orderId : String)
  | orderUpdateError (orderId : String)
  | orderCompleted (orderId : String)
  | engineStopped
deriving DecidableEq, Repr

/-- Engine-owned mutable state: the connector registry (keyed by strategy
id), the active-order registry (keyed by order id), metrics, the running
flag and the construction-time config. -/
structure EngineState where
  exchanges : List (String × ExchangeModel)
  activeOrders : List (String × Order)
  metrics : EngineMetrics
  isRunning : Bool
  config : TradingEngineConfig

/-- The outcome of an engine operation: the new state, the events emitted,
and the order ids for which a connector cancelOrder call was issued. -/
structure EngineStep where
  state : EngineState
  events : List EngineEvent
  cancelCalls : List String

namespace TradingEngine

/-- The metrics of a freshly constructed engine. -/
def initialMetrics : EngineMetrics :=
  { totalSignals := 0, executedTrades := 0, rejectedSignals := 0,
    activeStrategies := 0, totalPnL := 0, successRate := 0 }

/-- updateMetrics: recompute successRate as a percentage, only when at
least one signal has been counted. -/
def updateMetrics (m : EngineMetrics) : EngineMetrics :=
  if 0 < m.totalSignals then
    { m with successRate := ((m.executedTrades : ℚ) / (m.totalSignals : ℚ)) * 100 }
  else m

/-- getActiveOrders (value view): the orders currently in the registry. -/
def getActiveOrders (st : EngineState) : List Order :=
  st.activeOrders.map (fun e => e.2)

/-- One entry of the cancelAllOrders sweep: the engine looks up a
connector under the entry's map key (the source destructures the key into
a variable named strategyId), issues cancelOrder when one is found,
removes the order on success and emits orderCancelError on failure. -/
def cancelStep (exchanges : List (String × ExchangeModel))
    (acc : EngineStep) (entry : String × Order) : EngineStep :=
  let strategyId := entry.1
  let order := entry.2
  match mapFind? exchanges strategyId with
  | none => acc
  | some exchange =>
    if exchange.cancelOrderFn order.id then
      { acc with
        state := { acc.state with
          activeOrders := mapDelete acc.state.activeOrders order.id }
        cancelCalls := acc.cancelCalls ++ [order.id] }
    else
      { acc with
        events := acc.events ++ [.orderCancelError order.id]
        cancelCalls := acc.cancelCalls ++ [order.id] }

/-- cancelAllOrders: the sweep over every active-order entry (the source
issues the per-order cancels concurrently and awaits them all; with
per-entry disjoint effects this equals the sequential fold). -/
def cancelAllOrders (st : EngineState) : EngineStep :=
  st.activeOrders.foldl (cancelStep st.exchanges)
    { state := st, events := [], cancelCalls := [] }

/-- stop: a no-op while stopped; otherwise the running flag is cleared
first, then cancelAllOrders runs, then engineStopped is emitted. -/
def stop (st : EngineState) : EngineStep :=
  if ¬st.isRunning then { state := st, events := [], cancelCalls := [] }
  else
    let step := cancelAllOrders { st with isRunning := false }
    { step with events := step.events ++ [.engineStopped] }

/-- One entry of the order-monitoring pass: the engine looks up a
connector under the entry's map key, refreshes the order through getOrder,
stores the refreshed copy under the order id and removes it again when the
refreshed status is filled or cancelled; fetch failures emit
orderUpdateError and leave the entry alone. -/
def updateStep (exchanges : List (String × ExchangeModel))
    (acc : EngineStep) (entry : String × Order) : EngineStep :=
  let strategyId := entry.1
  let order := entry.2
  match mapFind? exchanges strategyId with
  | none => acc
  | some exchange =>
    match exchange.getOrderFn order.exchangeOrderId with
    | none => { acc with events := acc.events ++ [.orderUpdateError order.id] }
    | some updatedOrder =>
      let afterSet := mapSet acc.state.activeOrders order.id updatedOrder
      if updatedOrder.status = OrderStatus.filled ∨
          updatedOrder.status = OrderStatus.cancelled then
        { acc with
          state := { acc.state with
            activeOrders := mapDelete afterSet order.id }
          events := acc.events ++ [.orderCompleted updatedOrder.id] }
      else
        { acc with state := { acc.state with activeOrders := afterSet } }

/-- updateActiveOrders (one order-monitoring pass) as the fold of the
per-entry refresh over the registry snapshot. -/
def updateActiveOrders (st : EngineState) : EngineStep :=
  st.activeOrders.foldl (updateStep st.exchanges)
    { state := st, events := [], cancelCalls := [] }

/-- executePaperTrade: counts the execution and emits paperTradeExecuted;
the tradeExecuted listener (which recomputes metrics) is not involved. -/
def executePaperTrade (st : EngineState) : EngineState × List EngineEvent :=
  ({ st with metrics :=
      { st.metrics with executedTrades := st.metrics.executedTrades + 1 } },
   [.paperTradeExecuted])

/-- executeRealTrade: places the order through the strategy's connector;
on success the order joins the registry, the execution is counted and the
synchronous tradeExecuted listener recomputes the metrics; on a failure
envelope the signal is counted as rejected. -/
def executeRealTrade (st : EngineState) (strategyId : String)
    (orderRequest : OrderRequest) : EngineState × List EngineEvent :=
  match mapFind? st.exchanges strategyId with
  | none => (st, [.signalProcessingError])
  | some exchange =>
    match exchange.placeOrderFn orderRequest with
    | some order =>
      let st := { st with
        activeOrders := mapSet st.activeOrders order.id order }
      let metricsAfterCount :=
        { st.metrics with executedTrades := st.metrics.executedTrades + 1 }
      ({ st with metrics := updateMetrics metricsAfterCount },
       [.tradeExecuted order.id])
    | none =>
      ({ st with metrics :=
          { st.metrics with rejectedSignals := st.metrics.rejectedSignals + 1 } },
       [.tradeRejected])

/-- processSignal: counts the signal, consults the SafetyEngine with a
context built from the registry and the executed-trade count, rejects on
an invalid verdict, and otherwise executes on paper or for real. -/
def processSignal (st : EngineState) (signal : TradingSignal)
    (strategyId : String) (orderRequest : OrderRequest) :
    EngineState × List EngineEvent :=
  let st := { st with metrics :=
    { st.metrics with totalSignals := st.metrics.totalSignals + 1 } }
  let safetyResult := SafetyEngine.validateSignal signal
    { activeOrders := getActiveOrders st
      dailyTrades := st.metrics.executedTrades
      maxDailyTrades := st.config.maxDailyTrades
      portfolioValue := none
      currentDrawdown := none }
  if ¬safetyResult.isValid then
    ({ st with metrics :=
        { st.metrics with rejectedSignals := st.metrics.rejectedSignals + 1 } },
     [.signalRejected])
  else if st.config.enablePaperTrading then executePaperTrade st
  else executeRealTrade st strategyId orderRequest

end TradingEngine

/-! §9  Reference-heap model for the engine's read accessors.
getMetrics returns a fresh spread copy of the metrics object and
getActiveOrders returns a fresh array built from the registry values, so
mutating what they return must not reach the engine-owned objects.  The
JavaScript object graph is modelled as a store of values addressed by ℕ
references with a bump allocator. -/

/-- The heap values involved: the engine's metrics object, the engine's
order map, and the arrays handed out by getActiveOrders. -/
inductive JSValue
  | metricsObj (m : EngineMetrics)
  | engineOrdersMap (entries : List (String × Order))
  | orderArray (orders : List Order)
deriving DecidableEq, Repr

structure JSHeap where
  data : ℕ → JSValue
  next : ℕ

def heapRead (h : JSHeap) (r : ℕ) : JSValue := h.data r

def heapWrite (h : JSHeap) (r : ℕ) (v : JSValue) : JSHeap :=
  { h with data := Function.update h.data r v }

def heapAlloc (h : JSHeap) (v : JSValue) : JSHeap × ℕ :=
  ({ data := Function.update h.data h.next v, next := h.next + 1 }, h.next)

/-- The engine's references into the heap. -/
structure EngineRefs where
  metricsRef : ℕ
  activeOrdersRef : ℕ
deriving DecidableEq, Repr

namespace TradingEngine

/-- getMetrics: allocates a fresh object holding a copy of the current
metrics value and returns its reference. -/
def getMetricsAlloc (e : EngineRefs) (h : JSHeap) : JSHeap × ℕ :=
  match heapRead h e.metricsRef with
  | .metricsObj m => heapAlloc h (.metricsObj m)
  | v => heapAlloc h v

/-- getActiveOrders: allocates a fresh array holding the registry's order
values and returns its reference. -/
def getActiveOrdersAlloc (e : EngineRefs) (h : JSHeap) : JSHeap × ℕ :=
  match heapRead h e.activeOrdersRef with
  | .engineOrdersMap entries => heapAlloc h (.orderArray (entries.map (fun x => x.2)))
  | _ => heapAlloc h (.orderArray [])

end TradingEngine

/-! §10  Concrete inputs and states used to evaluate the definitions. -/

/-- Helpers distinguishing the two Except outcomes of calculate. -/
def isError {α : Type} : Except String α → Bool
  | .error _ => true
  | .ok _ => false

/-- The payload of a successful calculate call (empty on error). -/
def resultsOf {α : Type} : Except String (List α) → List α
  | .ok rs => rs
  | .error _ => []

/-- A flat price observation at the given time and close. -/
def sampleInput (t : ℤ) (c : ℚ) : IndicatorInput :=
  { timestamp := t, openPrice := c, high := c, low := c, close := c, volume := 0 }

/-- A three-point window for evaluating the indicator claims. -/
def c5Inputs : List IndicatorInput :=
  [sampleInput 1 10, sampleInput 2 11, sampleInput 3 12]

/-- Scale factor placing the engineered MACD histogram below the 8-decimal
rounding step. -/
def c6Eps : ℚ := 1 / 10 ^ 9

/-- A four-point window whose raw MACD(1,2,2) histogram is [0, 5/9·ε]:
a genuine non-positive-to-positive transition whose positive value rounds
to zero at 8 decimal places. -/
def c6Inputs : List IndicatorInput :=
  [sampleInput 1 (10 * c6Eps), sampleInput 2 (9 * c6Eps),
   sampleInput 3 (8 * c6Eps), sampleInput 4 (12 * c6Eps)]

/-- An open limit order registered under its own id in the engine. -/
def sampleOpenOrder : Order :=
  { id := "o1", symbol := "BTC-USD", side := .buy, type := .limit,
    size := 1, price := 100, status := .opened, filledSize := 0,
    averageFillPrice := none, fees := 0, exchangeOrderId := "x1" }

/-- The same order as the venue reports it after rejection. -/
def sampleRejectedOrder : Order := { sampleOpenOrder with status := .rejected }

/-- A connector whose getOrder always reports the rejected refresh. -/
def c1Exchange : ExchangeModel :=
  { placeOrderFn := fun _ => none
    cancelOrderFn := fun _ => true
    getOrderFn := fun _ => some sampleRejectedOrder }

/-- A live-trading engine configuration. -/
def liveConfig : TradingEngineConfig :=
  { maxConcurrentOrders := 5, maxDailyTrades := 10,
    emergencyStopLoss := 1 / 10, enablePaperTrading := false }

/-- The same configuration with paper trading enabled. -/
def paperConfig : TradingEngineConfig := { liveConfig with enablePaperTrading := true }

/-- Engine state whose only active order refreshes to REJECTED; the
connector is registered under the order's registry key so the monitoring
pass actually reaches the refresh. -/
def c1State : EngineState :=
  { exchanges := [("o1", c1Exchange)]
    activeOrders := [("o1", sampleOpenOrder)]
    metrics := TradingEngine.initialMetrics
    isRunning := true
    config := liveConfig }

/-- A connector whose cancelOrder always succeeds. -/
def c3Exchange : ExchangeModel :=
  { placeOrderFn := fun _ => none
    cancelOrderFn := fun _ => true
    getOrderFn := fun _ => none }

/-- A running engine in the shape produced by normal operation: the
connector registered under the strategy id, the order under its order id. -/
def c3State : EngineState :=
  { exchanges := [("s1", c3Exchange)]
    activeOrders := [("o1", sampleOpenOrder)]
    metrics := TradingEngine.initialMetrics
    isRunning := true
    config := liveConfig }

/-- A signal that passes every safety check of the fresh engine. -/
def c4Signal : TradingSignal :=
  { symbol := "BTC-USD", side := .buy, strength := 1 / 2, confidence := 70,
    strategyId := "s1", targetPrice := none, stopLoss := none,
    takeProfit := none, createdAt := 0 }

/-- The order request the strategy would derive from it. -/
def c4Request : OrderRequest :=
  { symbol := "BTC-USD", side := .buy, type := .market, size := 1, price := none }

/-- A fresh paper-trading engine. -/
def c4PaperState : EngineState :=
  { exchanges := [], activeOrders := [], metrics := TradingEngine.initialMetrics,
    isRunning := true, config := paperConfig }

/-- The order returned by the live connector on placement. -/
def c4PlacedOrder : Order :=
  { id := "real_1", symbol := "BTC-USD", side := .buy, type := .market,
    size := 1, price := 100, status := .opened, filledSize := 0,
    averageFillPrice := none, fees := 0, exchangeOrderId := "x9" }

/-- A connector that accepts every placement. -/
def c4Exchange : ExchangeModel :=
  { placeOrderFn := fun _ => some c4PlacedOrder
    cancelOrderFn := fun _ => true
    getOrderFn := fun _ => none }

/-- A fresh live-trading engine with that connector under strategy s1. -/
def c4LiveState : EngineState :=
  { exchanges := [("s1", c4Exchange)], activeOrders := [],
    metrics := TradingEngine.initialMetrics, isRunning := true,
    config := liveConfig }

/-- A safety-engine context with no orders and no trades yet. -/
def c2Context : SafetyValidationContext :=
  { activeOrders := [], dailyTrades := 0, maxDailyTrades := 10,
    portfolioValue := none, currentDrawdown := none }

/-- The simulator as constructed: 10000 USD and the two seeded symbols. -/
def initialSimulatorState : SimulatorState :=
  { balances := fun currency => if currency = "USD" then 10000 else 0
    orders := []
    fills := []
    nextOrderId := 1
    marketData := [("BTC-USD", { price := 45000, volume := 1000 }),
                   ("ETH-USD", { price := 3000, volume := 5000 })] }

/-- A market order already filled on the simulator. -/
def c9FilledOrder : Order :=
  { id := "sim_order_1", symbol := "BTC-USD", side := .buy, type := .market,
    size := 1, price := 45000, status := .filled, filledSize := 1,
    averageFillPrice := some 45000, fees := 0, exchangeOrderId := "sim_order_1" }

/-- The simulator holding that filled order. -/
def c9State : SimulatorState :=
  { initialSimulatorState with
    orders := [("sim_order_1", c9FilledOrder)], nextOrderId := 2 }

/-- Risk parameters placing no limit on stop loss or take profit. -/
def c8RiskParams : RiskParameters :=
  { maxPositionSize := 10, maxDailyLoss := none,
    stopLossPercentage := none, takeProfitPercentage := none }

/-- The RSI strategy defaults: period 14, floor 30, ceiling 70,
minimum confidence 70. -/
def c8Params : RSIStrategyParameters :=
  { rsiPeriod := 14, oversold := 30, overbought := 70, minConfidence := 70 }

/-- The last emitted signal: a BUY at time 0. -/
def c8LastSignal : TradingSignal :=
  { symbol := "BTC-USD", side := .buy, strength := 1 / 2, confidence := 80,
    strategyId := "s1", targetPrice := none, stopLoss := none,
    takeProfit := none, createdAt := 0 }

/-- A strategy whose indicator has just classified RSI 80 as overbought,
while its last signal is the BUY above. -/
def c8State : RSIStrategyState :=
  { strategyId := "s1", strategyIsActive := true, parameters := c8Params,
    riskParameters := c8RiskParams, symbol := "BTC-USD",
    marketData := [sampleInput 1 100],
    rsiResults := [{ timestamp := 1, value := 80, signalClass := .overbought }],
    lastSignal := some c8LastSignal }

/-- The SELL signal generateSignal produces from that state at time 1000,
inside the 30-minute cooldown window of the last BUY. -/
def c8Signal : TradingSignal :=
  { symbol := "BTC-USD", side := .sell, strength := 1 / 3, confidence := 80,
    strategyId := "s1", targetPrice := some 95, stopLoss := some 105,
    takeProfit := some 90, createdAt := 1000 }

/-- A heap holding the engine's metrics object at reference 0 and its
order map at reference 1. -/
def c10Heap : JSHeap :=
  { data := fun r =>
      if r = 0 then .metricsObj TradingEngine.initialMetrics
      else if r = 1 then .engineOrdersMap [("o1", sampleOpenOrder)]
      else .orderArray []
    next := 2 }

/-- The engine's references into that heap. -/
def c10Refs : EngineRefs := { metricsRef := 0, activeOrdersRef := 1 }

/-! §11  Helper lemmas about the Map model. -/

theorem mapFind?_mapSet_self {α : Type} (l : List (String × α)) (k : String)
    (v : α) : mapFind? (mapSet l k v) k = some v := by
  induction l with
  | nil => simp [mapSet, mapFind?]
  | cons head tail ih =>
    by_cases h : head.1 = k
    · simp [mapSet, mapFind?, h]
    · simp [mapSet, mapFind?, h, ih]

theorem mapFind?_mapSet_ne {α : Type} (l : List (String × α)) (k k2 : String)
    (v : α) (h : k2 ≠ k) : mapFind? (mapSet l k v) k2 = mapFind? l k2 := by
  have hk : ¬(k = k2) := fun hh => h hh.symm
  induction l with
  | nil => simp [mapSet, mapFind?, hk]
  | cons head tail ih =>
    by_cases hh : head.1 = k
    · simp [mapSet, mapFind?, hh, hk]
    · simp [mapSet, mapFind?, hh, ih]

theorem mapFind?_mapDelete_ne {α : Type} (l : List (String × α))
    (k k2 : String) (h : k2 ≠ k) :
    mapFind? (mapDelete l k) k2 = mapFind? l k2 := by
  have hk : ¬(k = k2) := fun hh => h hh.symm
  induction l with
  | nil => simp [mapDelete]
  | cons head tail ih =>
    by_cases hh : head.1 = k
    · simp [mapDelete, mapFind?, hh, hk]
    · simp [mapDelete, mapFind?, hh, ih]

theorem mapDelete_mapSet {α : Type} (l : List (String × α)) (k : String)
    (v : α) : mapDelete (mapSet l k v) k = mapDelete l k := by
  induction l with
  | nil => simp [mapSet, mapDelete]
  | cons head tail ih =>
    by_cases hh : head.1 = k
    · simp [mapSet, mapDelete, hh]
    · simp [mapSet, mapDelete, hh, ih]

theorem mapFind?_eq_none_of_not_mem {α : Type} (l : List (String × α))
    (k : String) (h : k ∉ l.map Prod.fst) : mapFind? l k = none := by
  induction l with
  | nil => simp [mapFind?]
  | cons head tail ih =>
    simp only [List.map_cons, List.mem_cons] at h
    push_neg at h
    have h1 : ¬(head.1 = k) := fun hh => h.1 hh.symm
    simp [mapFind?, h1, ih h.2]

theorem mapFind?_mapDelete_self {α : Type} (l : List (String × α))
    (k : String) (h : (l.map Prod.fst).Nodup) :
    mapFind? (mapDelete l k) k = none := by
  induction l with
  | nil => simp [mapDelete, mapFind?]
  | cons head tail ih =>
    simp only [List.map_cons, List.nodup_cons] at h
    by_cases hh : head.1 = k
    · simp only [mapDelete, hh, if_true]
      exact mapFind?_eq_none_of_not_mem tail k (hh ▸ h.1)
    · simp [mapDelete, mapFind?, hh, ih h.2]

theorem mem_of_mem_mapSet {α : Type} (l : List (String × α)) (k : String)
    (v : α) (x : String × α) (hx : x ∈ mapSet l k v) :
    x.1 = k ∨ x.1 ∈ l.map Prod.fst := by
  induction l with
  | nil =>
    simp only [mapSet, List.mem_singleton] at hx
    left; rw [hx]
  | cons head tail ih =>
    by_cases h3 : head.1 = k
    · simp only [mapSet, h3, if_true] at hx
      rcases List.mem_cons.mp hx with h4 | h4
      · left; rw [h4]
      · right
        simp only [List.map_cons, List.mem_cons]
        right
        exact List.mem_map_of_mem Prod.fst h4
    · simp only [mapSet, h3, if_false] at hx
      rcases List.mem_cons.mp hx with h4 | h4
      · right; rw [h4]; simp
      · rcases ih h4 with h5 | h5
        · left; exact h5
        · right; simp only [List.map_cons, List.mem_cons]; right; exact h5

theorem keys_mapSet_nodup {α : Type} (l : List (String × α)) (k : String)
    (v : α) (h : (l.map Prod.fst).Nodup) :
    ((mapSet l k v).map Prod.fst).Nodup := by
  induction l with
  | nil => simp [mapSet]
  | cons head tail ih =>
    simp only [List.map_cons, List.nodup_cons] at h
    by_cases hh : head.1 = k
    · simpa [mapSet, hh] using h
    · simp only [mapSet, hh, if_false, List.map_cons, List.nodup_cons]
      refine ⟨?_, ih h.2⟩
      intro hmem
      rcases List.mem_map.mp hmem with ⟨x, hx, hxk⟩
      rcases mem_of_mem_mapSet tail k v x hx with h5 | h5
      · exact hh (hxk ▸ h5 ▸ rfl)
      · exact h.1 (hxk ▸ h5)

theorem mapDelete_sublist {α : Type} (l : List (String × α)) (k : String) :
    (mapDelete l k).Sublist l := by
  induction l with
  | nil => simp [mapDelete]
  | cons head tail ih =>
    by_cases hh : head.1 = k
    · simp only [mapDelete, hh, if_true]
      exact List.sublist_cons_self head tail
    · simp only [mapDelete, hh, if_false]
      exact List.Sublist.cons₂ head ih

theorem keys_mapDelete_nodup {α : Type} (l : List (String × α)) (k : String)
    (h : (l.map Prod.fst).Nodup) : ((mapDelete l k).map Prod.fst).Nodup :=
  h.sublist (List.Sublist.map Prod.fst (mapDelete_sublist l k))

/-! §12  Claim C2: the SafetyEngine aggregate verdict. -/

/-- C2: for every trading signal and every validation context,
SafetyEngine.validateSignal returns a result whose isValid field is true
exactly when none of the five returned checks is a failed check of
severity high or critical; failed low or medium checks alone never make
the verdict false, and any failed high or critical check makes it false. -/
theorem safety_validateSignal_isValid_iff (signal : TradingSignal)
    (context : SafetyValidationContext) :
    (SafetyEngine.validateSignal signal context).isValid = true ↔
      ∀ check ∈ (SafetyEngine.validateSignal signal context).checks,
        check.isValid = false →
          check.severity ≠ Severity.high ∧ check.severity ≠ Severity.critical := by
  simp only [SafetyEngine.validateSignal, Bool.and_eq_true, beq_iff_eq,
    List.length_eq_zero, List.filter_eq_nil_iff, Bool.and_eq_true,
    Bool.not_eq_true, Bool.not_eq_true']
  constructor
  · rintro ⟨h1, h2⟩ check hc hval
    exact ⟨fun hs => h2 check hc ⟨hval, hs⟩, fun hs => h1 check hc ⟨hval, hs⟩⟩
  · intro h
    exact ⟨fun check hc hcontra => (h check hc hcontra.1).2 hcontra.2,
           fun check hc hcontra => (h check hc hcontra.1).1 hcontra.2⟩

/-- C2 witness: the fresh-engine context and a 70-confidence signal pass
every check, so the iff instantiates to a concrete valid verdict. -/
theorem safety_validateSignal_isValid_iff_witness :
    (SafetyEngine.validateSignal c4Signal c2Context).isValid = true := by
  apply (safety_validateSignal_isValid_iff c4Signal c2Context).mpr
  intro check hc hval
  simp only [SafetyEngine.validateSignal, SafetyEngine.checkPositionSize,
    SafetyEngine.checkDailyTradeLimit, SafetyEngine.checkDrawdownLimit,
    SafetyEngine.checkSignalConfidence, SafetyEngine.checkOrderConflicts,
    SafetyEngine.maxPositionSize, SafetyEngine.maxDrawdown,
    c4Signal, c2Context, jsOrNum, List.mem_cons] at hc hval ⊢
  norm_num at hc
  rcases hc with h | h | h | h | h <;> rw [h] at hval <;> norm_num at hval

/-! §13  Claim C9: terminal order statuses on the simulator. -/

/-- C9 counterexample: the simulator's cancelOrder does not respect the
one-way terminal state machine: a FILLED order is moved to CANCELLED by a
subsequent cancelOrder call, where the claim requires it to stay FILLED. -/
theorem c9_cancelOrder_moves_filled_counterexample :
    c9FilledOrder.status = OrderStatus.filled ∧
    mapFind? (SimulatorExchange.cancelOrder c9State "sim_order_1").1.orders
        "sim_order_1" =
      some { c9FilledOrder with status := OrderStatus.cancelled } ∧
    OrderStatus.cancelled ≠ OrderStatus.filled := by
  refine ⟨rfl, ?_, by decide⟩
  simp [SimulatorExchange.cancelOrder, c9State, initialSimulatorState,
    mapFind?, mapSet]

/-- C9 amended: on the simulator, cancelOrder sets the status of any
existing order to CANCELLED regardless of its current status (terminal
statuses included), returning the success envelope; only unknown order ids
are refused. -/
theorem simulator_cancelOrder_sets_cancelled (st : SimulatorState)
    (orderId : String) (order : Order)
    (h : mapFind? st.orders orderId = some order) :
    (SimulatorExchange.cancelOrder st orderId).2 = .success () ∧
    mapFind? (SimulatorExchange.cancelOrder st orderId).1.orders orderId =
      some { order with status := OrderStatus.cancelled } := by
  unfold SimulatorExchange.cancelOrder
  rw [h]
  exact ⟨rfl, mapFind?_mapSet_self st.orders orderId _⟩

/-- C9 witness: instantiated on the filled market order held by c9State. -/
theorem simulator_cancelOrder_sets_cancelled_witness :
    (SimulatorExchange.cancelOrder c9State "sim_order_1").2 =
      ApiResponse.success () ∧
    mapFind? (SimulatorExchange.cancelOrder c9State "sim_order_1").1.orders
        "sim_order_1" =
      some { c9FilledOrder with status := OrderStatus.cancelled } :=
  simulator_cancelOrder_sets_cancelled c9State "sim_order_1" c9FilledOrder
    (by simp [c9State, initialSimulatorState, mapFind?])

/-! §14  Claim C7: the simulated round trip preserves balances. -/

/-- C7: on the simulator, a market BUY of some size followed by a market
SELL of the same size at the unchanged simulated price leaves every
currency balance at its pre-trade value; simulated fills carry zero fees,
the BUY deducting size times price from the quote balance and adding the
size to the base balance, the SELL doing the inverse. -/
theorem simulator_market_round_trip (st : SimulatorState) (symbol : String)
    (size : ℚ) (entry : MarketEntry)
    (h : mapFind? st.marketData symbol = some entry) (currency : String) :
    ((SimulatorExchange.placeOrder
        (SimulatorExchange.placeOrder st
          (SimulatorExchange.marketBuy symbol size)).1
        (SimulatorExchange.marketSell symbol size)).1.balances currency) =
      st.balances currency := by
  simp only [SimulatorExchange.placeOrder, SimulatorExchange.marketBuy,
    SimulatorExchange.marketSell]
  simp only [h, SimulatorExchange.simulateOrderFill, reduceIte, reduceCtorEq]
  generalize symbolBase symbol = b
  generalize symbolQuote symbol = q
  simp only [Function.update, eq_rec_constant]
  split_ifs <;> subst_vars <;> (try ring) <;> simp_all <;> (try ring)

/-- C7 witness: one BTC bought and sold back on the freshly constructed
simulator leaves the USD balance at its 10000 initial value. -/
theorem simulator_market_round_trip_witness :
    ((SimulatorExchange.placeOrder
        (SimulatorExchange.placeOrder initialSimulatorState
          (SimulatorExchange.marketBuy "BTC-USD" 1)).1
        (SimulatorExchange.marketSell "BTC-USD" 1)).1.balances "USD") =
      initialSimulatorState.balances "USD" :=
  simulator_market_round_trip initialSimulatorState "BTC-USD" 1
    { price := 45000, volume := 1000 }
    (by simp [initialSimulatorState, mapFind?]) "USD"

/-! §15  Claim C10: the read accessors return decoupled snapshots. -/

/-- C10: getMetrics returns a fresh copy of the metrics object and
getActiveOrders a fresh array of the registry values, so writing any value
whatsoever over either returned reference leaves the engine-owned objects
untouched, and a second call to the same accessor on the mutated heap
still returns the pre-mutation values. -/
theorem engine_accessors_decoupled (e : EngineRefs) (h : JSHeap)
    (hm : e.metricsRef < h.next) (ho : e.activeOrdersRef < h.next)
    (v w : JSValue) :
    (heapRead
        (heapWrite (TradingEngine.getMetricsAlloc e h).1
          (TradingEngine.getMetricsAlloc e h).2 v)
        e.metricsRef = heapRead h e.metricsRef) ∧
    (heapRead
        (TradingEngine.getMetricsAlloc e
          (heapWrite (TradingEngine.getMetricsAlloc e h).1
            (TradingEngine.getMetricsAlloc e h).2 v)).1
        (TradingEngine.getMetricsAlloc e
          (heapWrite (TradingEngine.getMetricsAlloc e h).1
            (TradingEngine.getMetricsAlloc e h).2 v)).2 =
      heapRead (TradingEngine.getMetricsAlloc e h).1
        (TradingEngine.getMetricsAlloc e h).2) ∧
    (heapRead
        (heapWrite (TradingEngine.getActiveOrdersAlloc e h).1
          (TradingEngine.getActiveOrdersAlloc e h).2 w)
        e.activeOrdersRef = heapRead h e.activeOrdersRef) ∧
    (heapRead
        (TradingEngine.getActiveOrdersAlloc e
          (heapWrite (TradingEngine.getActiveOrdersAlloc e h).1
            (TradingEngine.getActiveOrdersAlloc e h).2 w)).1
        (TradingEngine.getActiveOrdersAlloc e
          (heapWrite (TradingEngine.getActiveOrdersAlloc e h).1
            (TradingEngine.getActiveOrdersAlloc e h).2 w)).2 =
      heapRead (TradingEngine.getActiveOrdersAlloc e h).1
        (TradingEngine.getActiveOrdersAlloc e h).2) := by
  have hmne : e.metricsRef ≠ h.next := Nat.ne_of_lt hm
  have hone : e.activeOrdersRef ≠ h.next := Nat.ne_of_lt ho
  have hmne1 : e.metricsRef ≠ h.next + 1 := Nat.ne_of_lt (Nat.lt_succ_of_lt hm)
  have hone1 : e.activeOrdersRef ≠ h.next + 1 := Nat.ne_of_lt (Nat.lt_succ_of_lt ho)
  have hfresh : h.next + 1 ≠ h.next := Nat.succ_ne_self h.next
  refine ⟨?_, ?_, ?_, ?_⟩ <;>
    cases hv : h.data e.metricsRef <;>
    cases hw : h.data e.activeOrdersRef <;>
    simp [TradingEngine.getMetricsAlloc, TradingEngine.getActiveOrdersAlloc,
      heapAlloc, heapWrite, heapRead, Function.update, hv, hw,
      hmne, hone, hmne1, hone1, hfresh]

/-- C10 witness: on the concrete two-object heap, overwriting the metrics
snapshot with an empty array and the orders snapshot with a metrics object
leaves both engine-owned objects and the re-read values intact. -/
theorem engine_accessors_decoupled_witness :
    (heapRead
        (heapWrite (TradingEngine.getMetricsAlloc c10Refs c10Heap).1
          (TradingEngine.getMetricsAlloc c10Refs c10Heap).2 (.orderArray []))
        c10Refs.metricsRef = heapRead c10Heap c10Refs.metricsRef) ∧
    (heapRead
        (TradingEngine.getMetricsAlloc c10Refs
          (heapWrite (TradingEngine.getMetricsAlloc c10Refs c10Heap).1
            (TradingEngine.getMetricsAlloc c10Refs c10Heap).2 (.orderArray []))).1
        (TradingEngine.getMetricsAlloc c10Refs
          (heapWrite (TradingEngine.getMetricsAlloc c10Refs c10Heap).1
            (TradingEngine.getMetricsAlloc c10Refs c10Heap).2 (.orderArray []))).2 =
      heapRead (TradingEngine.getMetricsAlloc c10Refs c10Heap).1
        (TradingEngine.getMetricsAlloc c10Refs c10Heap).2) ∧
    (heapRead
        (heapWrite (TradingEngine.getActiveOrdersAlloc c10Refs c10Heap).1
          (TradingEngine.getActiveOrdersAlloc c10Refs c10Heap).2
          (.metricsObj TradingEngine.initialMetrics))
        c10Refs.activeOrdersRef = heapRead c10Heap c10Refs.activeOrdersRef) ∧
    (heapRead
        (TradingEngine.getActiveOrdersAlloc c10Refs
          (heapWrite (TradingEngine.getActiveOrdersAlloc c10Refs c10Heap).1
            (TradingEngine.getActiveOrdersAlloc c10Refs c10Heap).2
            (.metricsObj TradingEngine.initialMetrics))).1
        (TradingEngine.getActiveOrdersAlloc c10Refs
          (heapWrite (TradingEngine.getActiveOrdersAlloc c10Refs c10Heap).1
            (TradingEngine.getActiveOrdersAlloc c10Refs c10Heap).2
            (.metricsObj TradingEngine.initialMetrics))).2 =
      heapRead (TradingEngine.getActiveOrdersAlloc c10Refs c10Heap).1
        (TradingEngine.getActiveOrdersAlloc c10Refs c10Heap).2) :=
  engine_accessors_decoupled c10Refs c10Heap (by decide) (by decide)
    (.orderArray []) (.metricsObj TradingEngine.initialMetrics)

/-! §16  Claim C8: the reversal cooldown of the RSI strategy. -/

/-- C8: with a recorded last signal, a newly generated signal of the
opposite side created less than the 30-minute cooldown after the last
signal is rejected by validateSignal, and run() then returns nothing and
leaves the strategy state (lastSignal included) unchanged, so an emitted
side reversal can only occur once the cooldown has elapsed. -/
theorem rsi_cooldown_suppresses_reversal (st : RSIStrategyState) (now : ℤ)
    (lastSignal signal : TradingSignal)
    (hlast : st.lastSignal = some lastSignal)
    (hgen : RSIStrategy.generateSignal st now = some signal)
    (hside : signal.side ≠ lastSignal.side)
    (htime : signal.createdAt - lastSignal.createdAt < RSIStrategy.minCooldown) :
    RSIStrategy.validateSignal st signal = false ∧
    RSIStrategy.run st now = (st, none) := by
  have hval : RSIStrategy.validateSignal st signal = false := by
    unfold RSIStrategy.validateSignal
    split_ifs with h1
    · rfl
    · rw [hlast]
      simp only
      rw [if_pos ⟨htime, fun hh => hside hh.symm⟩]
  refine ⟨hval, ?_⟩
  unfold RSIStrategy.run
  split_ifs with h1
  · rfl
  · rw [hgen]
    simp only [hval, Bool.false_eq_true, if_false]

/-- C8 witness: the overbought RSI 80 strategy state generates a SELL at
time 1000, within the cooldown of its recorded BUY at time 0, and the SELL
is suppressed. -/
theorem rsi_cooldown_suppresses_reversal_witness :
    RSIStrategy.validateSignal c8State c8Signal = false ∧
    RSIStrategy.run c8State 1000 = (c8State, none) :=
  rsi_cooldown_suppresses_reversal c8State 1000 c8LastSignal c8Signal
    rfl
    (by
      simp only [RSIStrategy.generateSignal, RSIStrategy.getCurrentPrice,
        RSIStrategy.createSignal, RSIStrategy.jsOptPrice, c8State, c8Params,
        c8Signal, sampleInput, List.getLast?]
      norm_num)
    (by simp [c8Signal, c8LastSignal])
    (by simp [c8Signal, c8LastSignal, RSIStrategy.minCooldown])


/-! §17  Claim C3: stop() and the cancellation sweep. -/

/-- The cancellation sweep accumulates one connector cancel call per entry
whose registry key has a registered connector, an orderCancelError event
per failed cancel, and never touches the running flag. -/
theorem cancelFold_spec (exchanges : List (String × ExchangeModel))
    (l : List (String × Order)) (acc : EngineStep) :
    (l.foldl (TradingEngine.cancelStep exchanges) acc).cancelCalls =
      acc.cancelCalls ++
        (l.filter (fun entry => (mapFind? exchanges entry.1).isSome)).map
          (fun entry => entry.2.id) ∧
    (l.foldl (TradingEngine.cancelStep exchanges) acc).events =
      acc.events ++
        (l.filter (fun entry =>
          match mapFind? exchanges entry.1 with
          | some exchange => !exchange.cancelOrderFn entry.2.id
          | none => false)).map
            (fun entry => EngineEvent.orderCancelError entry.2.id) ∧
    (l.foldl (TradingEngine.cancelStep exchanges) acc).state.isRunning =
      acc.state.isRunning := by
  induction l generalizing acc with
  | nil => simp
  | cons head tail ih =>
    simp only [List.foldl_cons, List.filter_cons]
    cases hx : mapFind? exchanges head.1 with
    | none => simp [TradingEngine.cancelStep, hx, ih]
    | some exchange =>
      by_cases hc : exchange.cancelOrderFn head.2.id <;>
        simp [TradingEngine.cancelStep, hx, hc, ih]

/-- C3 counterexample: in the state normal operation produces (connectors
keyed by strategy id, orders keyed by order id), stop() on the running
engine issues no cancel call at all for the active order, although the
claim requires a cancel for every registry entry. -/
theorem c3_stop_issues_no_cancels_counterexample :
    c3State.isRunning = true ∧
    c3State.activeOrders = [("o1", sampleOpenOrder)] ∧
    (TradingEngine.stop c3State).cancelCalls = [] := by
  refine ⟨rfl, rfl, ?_⟩
  simp [TradingEngine.stop, TradingEngine.cancelAllOrders,
    TradingEngine.cancelStep, c3State, mapFind?]

/-- C3 amended: stop() on a stopped engine changes nothing; on a running
engine it clears the running flag first and then sweeps the registry,
issuing a connector cancel only for entries whose registry key (an order
id) has a registered connector (registered under strategy ids, so in
typical states no cancel is issued), reporting each failed cancel as an
orderCancelError event without blocking the rest, and finally emitting
engineStopped with the flag false. -/
theorem engine_stop_behaviour (st : EngineState) :
    (st.isRunning = false →
      TradingEngine.stop st = { state := st, events := [], cancelCalls := [] }) ∧
    (st.isRunning = true →
      (TradingEngine.stop st).state.isRunning = false ∧
      (TradingEngine.stop st).cancelCalls =
        (st.activeOrders.filter
          (fun entry => (mapFind? st.exchanges entry.1).isSome)).map
            (fun entry => entry.2.id) ∧
      (TradingEngine.stop st).events =
        ((st.activeOrders.filter (fun entry =>
            match mapFind? st.exchanges entry.1 with
            | some exchange => !exchange.cancelOrderFn entry.2.id
            | none => false)).map
              (fun entry => EngineEvent.orderCancelError entry.2.id)) ++
          [EngineEvent.engineStopped]) := by
  constructor
  · intro h
    simp [TradingEngine.stop, h]
  · intro h
    have hspec := cancelFold_spec st.exchanges st.activeOrders
      { state := { st with isRunning := false }, events := [], cancelCalls := [] }
    simp only [TradingEngine.stop, TradingEngine.cancelAllOrders, h,
      Bool.not_true, Bool.false_eq_true, if_false, ite_false]
    refine ⟨?_, ?_, ?_⟩
    · simpa using hspec.2.2
    · simpa using hspec.1
    · rw [hspec.2.1]
      simp

/-- C3 witness: on the running one-order engine the sweep issues no cancel
(the filter is empty) and stop() ends with the flag false and only the
engineStopped event. -/
theorem engine_stop_behaviour_witness :
    (TradingEngine.stop c3State).state.isRunning = false ∧
    (TradingEngine.stop c3State).cancelCalls = [] ∧
    (TradingEngine.stop c3State).events = [EngineEvent.engineStopped] := by
  have h := (engine_stop_behaviour c3State).2 rfl
  refine ⟨h.1, ?_, ?_⟩
  · rw [h.2.1]
    simp [c3State, mapFind?]
  · rw [h.2.2]
    simp [c3State, mapFind?]

/-! §18  Claim C4: the success-rate metric. -/

/-- C4 counterexample: a successful paper execution on a fresh engine
leaves successRate at 0 even though executedTrades / totalSignals = 1:
the paperTradeExecuted path never triggers the metrics recomputation. -/
theorem c4_successRate_counterexample :
    (TradingEngine.processSignal c4PaperState c4Signal "s1" c4Request).1.metrics.totalSignals = 1 ∧
    (TradingEngine.processSignal c4PaperState c4Signal "s1" c4Request).1.metrics.executedTrades = 1 ∧
    (TradingEngine.processSignal c4PaperState c4Signal "s1" c4Request).1.metrics.successRate = 0 ∧
    ((1 : ℚ) / (1 : ℚ) ≠ 0) := by
  refine ⟨?_, ?_, ?_, by norm_num⟩ <;>
    norm_num [TradingEngine.processSignal, TradingEngine.executePaperTrade,
      TradingEngine.getActiveOrders, TradingEngine.initialMetrics,
      SafetyEngine.validateSignal, SafetyEngine.checkPositionSize,
      SafetyEngine.checkDailyTradeLimit, SafetyEngine.checkDrawdownLimit,
      SafetyEngine.checkSignalConfidence, SafetyEngine.checkOrderConflicts,
      SafetyEngine.maxPositionSize, SafetyEngine.maxDrawdown, jsOrNum,
      c4PaperState, c4Signal, c4Request, paperConfig, liveConfig]

/-- C4 amended: after an approved signal, a successful live execution sets
successRate to (executedTrades / totalSignals) x 100 over the updated
counters, while a successful paper execution increments the counters but
leaves successRate unchanged (the recomputation hangs off the
tradeExecuted event only); the engine starts with totalSignals = 0 and
successRate = 0, and no division is performed when totalSignals = 0. -/
theorem engine_successRate_recompute (st : EngineState)
    (signal : TradingSignal) (strategyId : String)
    (orderRequest : OrderRequest)
    (hvalid : (SafetyEngine.validateSignal signal
      { activeOrders := TradingEngine.getActiveOrders st
        dailyTrades := st.metrics.executedTrades
        maxDailyTrades := st.config.maxDailyTrades
        portfolioValue := none
        currentDrawdown := none }).isValid = true) :
    (st.config.enablePaperTrading = true →
      (TradingEngine.processSignal st signal strategyId orderRequest).1.metrics.successRate
        = st.metrics.successRate ∧
      (TradingEngine.processSignal st signal strategyId orderRequest).1.metrics.executedTrades
        = st.metrics.executedTrades + 1 ∧
      (TradingEngine.processSignal st signal strategyId orderRequest).1.metrics.totalSignals
        = st.metrics.totalSignals + 1) ∧
    (∀ exchange order,
      st.config.enablePaperTrading = false →
      mapFind? st.exchanges strategyId = some exchange →
      exchange.placeOrderFn orderRequest = some order →
      (TradingEngine.processSignal st signal strategyId orderRequest).1.metrics.successRate
        = ((st.metrics.executedTrades : ℚ) + 1) /
            ((st.metrics.totalSignals : ℚ) + 1) * 100) ∧
    TradingEngine.initialMetrics.totalSignals = 0 ∧
    TradingEngine.initialMetrics.successRate = 0 := by
  have hvalid2 : (SafetyEngine.validateSignal signal
      { activeOrders := TradingEngine.getActiveOrders
          { st with metrics :=
            { st.metrics with totalSignals := st.metrics.totalSignals + 1 } }
        dailyTrades := st.metrics.executedTrades
        maxDailyTrades := st.config.maxDailyTrades
        portfolioValue := none
        currentDrawdown := none }).isValid = true := by
    simpa [TradingEngine.getActiveOrders] using hvalid
  refine ⟨?_, ?_, rfl, rfl⟩
  · intro hpaper
    simp [TradingEngine.processSignal, hvalid2, hpaper,
      TradingEngine.executePaperTrade]
  · intro exchange order hlive hex hplace
    have hred : TradingEngine.processSignal st signal strategyId orderRequest =
        TradingEngine.executeRealTrade
          { st with metrics :=
            { st.metrics with totalSignals := st.metrics.totalSignals + 1 } }
          strategyId orderRequest := by
      unfold TradingEngine.processSignal
      rw [if_neg (by simp [hvalid2])]
      rw [if_neg (by simp [hlive])]
    rw [hred]
    simp only [TradingEngine.executeRealTrade, hex, hplace,
      TradingEngine.updateMetrics]
    rw [if_pos (Nat.succ_pos _)]
    push_cast
    ring

/-- C4 witness: on the fresh live engine whose connector accepts the
placement, one approved signal yields successRate (0+1)/(0+1)x100. -/
theorem engine_successRate_recompute_witness :
    (TradingEngine.processSignal c4LiveState c4Signal "s1" c4Request).1.metrics.successRate
      = 100 := by
  have h := (engine_successRate_recompute c4LiveState c4Signal "s1" c4Request
    (by
      norm_num [TradingEngine.getActiveOrders, SafetyEngine.validateSignal,
        SafetyEngine.checkPositionSize, SafetyEngine.checkDailyTradeLimit,
        SafetyEngine.checkDrawdownLimit, SafetyEngine.checkSignalConfidence,
        SafetyEngine.checkOrderConflicts, SafetyEngine.maxPositionSize,
        SafetyEngine.maxDrawdown, jsOrNum, c4LiveState, c4Signal,
        liveConfig, TradingEngine.initialMetrics])).2.1
    c4Exchange c4PlacedOrder rfl (by simp [c4LiveState, mapFind?]) rfl
  rw [h]
  norm_num [c4LiveState, TradingEngine.initialMetrics]


/-! §19  Claim C1: terminal statuses and the order-monitoring pass. -/

/-- A monitoring step for an entry whose order id differs from k leaves
the binding of k unchanged (each step only writes under its own order id). -/
theorem updateStep_lookup_ne (exchanges : List (String × ExchangeModel))
    (acc : EngineStep) (entry : String × Order) (k : String)
    (hne : k ≠ entry.2.id) :
    mapFind? (TradingEngine.updateStep exchanges acc entry).state.activeOrders k =
      mapFind? acc.state.activeOrders k := by
  unfold TradingEngine.updateStep
  dsimp only
  cases hx : mapFind? exchanges entry.1 with
  | none => rfl
  | some exchange =>
    dsimp only
    cases hg : exchange.getOrderFn entry.2.exchangeOrderId with
    | none => rfl
    | some u =>
      by_cases hterm : u.status = OrderStatus.filled ∨
          u.status = OrderStatus.cancelled
      · simp only [hterm, if_true]
        rw [mapFind?_mapDelete_ne _ _ _ hne, mapFind?_mapSet_ne _ _ _ _ hne]
      · simp only [hterm, if_false]
        exact mapFind?_mapSet_ne _ _ _ _ hne

/-- A monitoring step preserves key distinctness of the registry. -/
theorem updateStep_keys_nodup (exchanges : List (String × ExchangeModel))
    (acc : EngineStep) (entry : String × Order)
    (h : (acc.state.activeOrders.map Prod.fst).Nodup) :
    ((TradingEngine.updateStep exchanges acc entry).state.activeOrders.map
      Prod.fst).Nodup := by
  unfold TradingEngine.updateStep
  dsimp only
  cases hx : mapFind? exchanges entry.1 with
  | none => exact h
  | some exchange =>
    dsimp only
    cases hg : exchange.getOrderFn entry.2.exchangeOrderId with
    | none => exact h
    | some u =>
      by_cases hterm : u.status = OrderStatus.filled ∨
          u.status = OrderStatus.cancelled
      · simp only [hterm, if_true]
        exact keys_mapDelete_nodup _ _ (keys_mapSet_nodup _ _ _ h)
      · simp only [hterm, if_false]
        exact keys_mapSet_nodup _ _ _ h

/-- Folding the monitoring step over entries none of which carries key k
leaves the binding of k unchanged. -/
theorem updateFold_preserves (exchanges : List (String × ExchangeModel))
    (k : String) (l : List (String × Order)) (acc : EngineStep)
    (hkeys : ∀ e ∈ l, e.1 = e.2.id) (hnotin : k ∉ l.map Prod.fst) :
    mapFind? (l.foldl (TradingEngine.updateStep exchanges) acc).state.activeOrders k =
      mapFind? acc.state.activeOrders k := by
  induction l generalizing acc with
  | nil => rfl
  | cons head tail ih =>
    simp only [List.map_cons, List.mem_cons] at hnotin
    push_neg at hnotin
    have hne : k ≠ head.2.id := by
      rw [← hkeys head (List.mem_cons_self _ _)]
      exact hnotin.1
    simp only [List.foldl_cons]
    rw [ih (TradingEngine.updateStep exchanges acc head)
      (fun e he => hkeys e (List.mem_cons_of_mem _ he)) hnotin.2]
    exact updateStep_lookup_ne exchanges acc head k hne

/-- In a map with distinct keys, membership determines the lookup. -/
theorem mapFind?_of_mem {α : Type} (l : List (String × α)) (k : String)
    (v : α) (hnodup : (l.map Prod.fst).Nodup) (hmem : (k, v) ∈ l) :
    mapFind? l k = some v := by
  induction l with
  | nil => cases hmem
  | cons head tail ih =>
    simp only [List.map_cons, List.nodup_cons] at hnodup
    rcases List.mem_cons.mp hmem with heq | hmem2
    · rw [← heq]
      simp [mapFind?]
    · have hk : k ∈ tail.map Prod.fst := by
        exact List.mem_map.mpr ⟨(k, v), hmem2, rfl⟩
      have hne : ¬(head.1 = k) := fun hh => hnodup.1 (hh ▸ hk)
      simp [mapFind?, hne, ih hnodup.2 hmem2]

/-- The registry binding of an entry after the full monitoring fold:
untouched without a connector under its key or on a failed refresh,
replaced by the refreshed order on a non-terminal refresh, and removed
exactly when the refreshed status is filled or cancelled. -/
theorem updateFold_lookup (exchanges : List (String × ExchangeModel))
    (l : List (String × Order)) (acc : EngineStep) (k : String) (o : Order)
    (hkeys : ∀ e ∈ l, e.1 = e.2.id) (hnodup : (l.map Prod.fst).Nodup)
    (haccnodup : (acc.state.activeOrders.map Prod.fst).Nodup)
    (hmem : (k, o) ∈ l)
    (hfind : mapFind? acc.state.activeOrders k = some o) :
    mapFind? (l.foldl (TradingEngine.updateStep exchanges) acc).state.activeOrders k =
      (match mapFind? exchanges k with
       | none => some o
       | some exchange =>
         match exchange.getOrderFn o.exchangeOrderId with
         | none => some o
         | some u =>
           if u.status = OrderStatus.filled ∨ u.status = OrderStatus.cancelled
           then none
           else some u) := by
  induction l generalizing acc with
  | nil => cases hmem
  | cons head tail ih =>
    have hid : head.1 = head.2.id := hkeys head (List.mem_cons_self _ _)
    simp only [List.map_cons, List.nodup_cons] at hnodup
    simp only [List.foldl_cons]
    rcases List.mem_cons.mp hmem with heq | hmem2
    · subst heq
      have hknot : k ∉ tail.map Prod.fst := by simpa using hnodup.1
      have hko : k = o.id := by simpa using hid
      rw [updateFold_preserves exchanges k tail _
        (fun e he => hkeys e (List.mem_cons_of_mem _ he)) hknot]
      unfold TradingEngine.updateStep
      dsimp only
      cases hx : mapFind? exchanges k with
      | none => exact hfind
      | some exchange =>
        dsimp only
        cases hg : exchange.getOrderFn o.exchangeOrderId with
        | none => exact hfind
        | some u =>
          by_cases hterm : u.status = OrderStatus.filled ∨
              u.status = OrderStatus.cancelled
          · simp only [hterm, if_true]
            rw [← hko, mapDelete_mapSet]
            exact mapFind?_mapDelete_self _ _ haccnodup
          · simp only [hterm, if_false]
            rw [← hko]
            exact mapFind?_mapSet_self _ _ _
    · have hk : k ∈ tail.map Prod.fst :=
        List.mem_map.mpr ⟨(k, o), hmem2, rfl⟩
      have hne : k ≠ head.2.id := by
        rw [← hid]
        exact fun hh => hnodup.1 (hh ▸ hk)
      exact ih (TradingEngine.updateStep exchanges acc head)
        (fun e he => hkeys e (List.mem_cons_of_mem _ he)) hnodup.2
        (updateStep_keys_nodup exchanges acc head haccnodup) hmem2
        ((updateStep_lookup_ne exchanges acc head k hne).trans hfind)

/-- C1 counterexample: an active order whose refresh (through the
connector registered under its registry key) reports the terminal status
REJECTED stays in the registry: the monitoring pass stores the refreshed
copy but removes only filled or cancelled orders, so the rejected order
still appears in getActiveOrders afterwards. -/
theorem c1_rejected_refresh_not_removed_counterexample :
    c1Exchange.getOrderFn sampleOpenOrder.exchangeOrderId =
      some sampleRejectedOrder ∧
    sampleRejectedOrder.status = OrderStatus.rejected ∧
    (TradingEngine.updateActiveOrders c1State).state.activeOrders =
      [("o1", sampleRejectedOrder)] ∧
    TradingEngine.getActiveOrders (TradingEngine.updateActiveOrders c1State).state =
      [sampleRejectedOrder] := by
  refine ⟨rfl, rfl, ?_, ?_⟩ <;>
    simp [TradingEngine.updateActiveOrders, TradingEngine.updateStep,
      TradingEngine.getActiveOrders, c1State, c1Exchange, mapFind?, mapSet,
      sampleRejectedOrder, sampleOpenOrder]

/-- C1 amended: in a registry keyed by order ids with distinct keys, the
monitoring pass acts on each entry as follows: without a connector
registered under the entry's key (the engine registers connectors under
strategy ids, so in typical states this is every entry) or on a failed
refresh the binding is unchanged; a refresh to FILLED or CANCELLED removes
the order; a refresh to any other status, the terminal REJECTED and
EXPIRED included, replaces the binding with the refreshed order, which
therefore still appears in getActiveOrders. -/
theorem engine_monitoring_pass_lookup (st : EngineState) (k : String)
    (o : Order)
    (hkeys : ∀ e ∈ st.activeOrders, e.1 = e.2.id)
    (hnodup : (st.activeOrders.map Prod.fst).Nodup)
    (hmem : (k, o) ∈ st.activeOrders) :
    mapFind? (TradingEngine.updateActiveOrders st).state.activeOrders k =
      (match mapFind? st.exchanges k with
       | none => some o
       | some exchange =>
         match exchange.getOrderFn o.exchangeOrderId with
         | none => some o
         | some u =>
           if u.status = OrderStatus.filled ∨ u.status = OrderStatus.cancelled
           then none
           else some u) :=
  updateFold_lookup st.exchanges st.activeOrders
    { state := st, events := [], cancelCalls := [] } k o hkeys hnodup hnodup
    hmem (mapFind?_of_mem st.activeOrders k o hnodup hmem)

/-- C1 witness: instantiated on the one-order registry whose connector
refreshes the order to REJECTED; the binding becomes the rejected copy. -/
theorem engine_monitoring_pass_lookup_witness :
    mapFind? (TradingEngine.updateActiveOrders c1State).state.activeOrders
      "o1" = some sampleRejectedOrder := by
  have h := engine_monitoring_pass_lookup c1State "o1" sampleOpenOrder
    (by
      intro e he
      simp only [c1State, List.mem_singleton] at he
      rw [he]
      rfl)
    (by simp [c1State])
    (by simp [c1State])
  rw [h]
  simp [c1State, c1Exchange, mapFind?, sampleRejectedOrder, sampleOpenOrder]


/-! §20  Claim C5: indicator insufficiency thresholds and result counts. -/

theorem length_calculateSMA (values : List ℚ) (period : ℕ)
    (h : period ≤ values.length) :
    (MathUtils.calculateSMA values period).length = values.length - period + 1 := by
  unfold MathUtils.calculateSMA
  rw [if_neg (by omega)]
  simp

theorem length_calculateEMA (values : List ℚ) (period : ℕ)
    (h : period ≤ values.length) :
    (MathUtils.calculateEMA values period).length = values.length - period + 1 := by
  unfold MathUtils.calculateEMA
  rw [if_neg (by omega)]
  simp [List.length_scanl]

theorem calculateEMA_eq_nil (values : List ℚ) (period : ℕ)
    (h : values.length < period) : MathUtils.calculateEMA values period = [] := by
  unfold MathUtils.calculateEMA
  rw [if_pos h]

theorem length_macdLine (fastPeriod slowPeriod : ℕ) (values : List ℚ)
    (hfs : fastPeriod < slowPeriod) (h : slowPeriod ≤ values.length) :
    (macdLineOf fastPeriod slowPeriod values).length =
      values.length - slowPeriod + 1 := by
  unfold macdLineOf
  rw [List.length_zipWith, List.length_drop,
    length_calculateEMA _ _ (by omega), length_calculateEMA _ _ (by omega)]
  omega

theorem length_macdSignalLine (fastPeriod slowPeriod signalPeriod : ℕ)
    (values : List ℚ) (hfs : fastPeriod < slowPeriod) (hsig : 0 < signalPeriod)
    (h : slowPeriod + signalPeriod - 1 ≤ values.length) :
    (macdSignalLineOf fastPeriod slowPeriod signalPeriod values).length =
      values.length - (slowPeriod + signalPeriod - 1) + 1 := by
  unfold macdSignalLineOf
  have hs : slowPeriod ≤ values.length := by omega
  rw [length_calculateEMA _ _ (by rw [length_macdLine _ _ _ hfs hs]; omega),
    length_macdLine _ _ _ hfs hs]
  omega

theorem length_macdHistogram (fastPeriod slowPeriod signalPeriod : ℕ)
    (values : List ℚ) (hfs : fastPeriod < slowPeriod) (hsig : 0 < signalPeriod)
    (h : slowPeriod + signalPeriod - 1 ≤ values.length) :
    (macdHistogramOf fastPeriod slowPeriod signalPeriod values).length =
      values.length - (slowPeriod + signalPeriod - 1) + 1 := by
  unfold macdHistogramOf
  have hs : slowPeriod ≤ values.length := by omega
  rw [List.length_zipWith, List.length_drop,
    length_macdSignalLine _ _ _ _ hfs hsig h, length_macdLine _ _ _ hfs hs]
  omega

/-- getD on a mapped range evaluates the function at in-range indices. -/
theorem getD_range_map {α : Type} [Inhabited α] (n : ℕ) (f : ℕ → α) (i : ℕ)
    (h : i < n) : ((List.range n).map f).getD i default = f i := by
  rw [List.getD_eq_getElem _ _ (by simpa using h)]
  simp

theorem smaCalculate_ok_parts (period : ℕ) (inputs : List IndicatorInput)
    (hlen : period ≤ inputs.length) :
    (resultsOf (smaCalculate period inputs)).length =
      inputs.length - period + 1 ∧
    ∀ i < inputs.length - period + 1,
      ((resultsOf (smaCalculate period inputs)).getD i default).timestamp =
        (inputs.getD (i + period - 1) default).timestamp := by
  have hS : (MathUtils.calculateSMA (inputs.map (fun x => x.close)) period).length
      = inputs.length - period + 1 := by
    rw [length_calculateSMA _ _ (by simpa using hlen), List.length_map]
  constructor
  · unfold smaCalculate
    rw [if_neg (by omega)]
    simp only [resultsOf, List.length_map, List.length_range, hS]
  · intro i hi
    unfold smaCalculate
    rw [if_neg (by omega)]
    simp only [resultsOf]
    rw [getD_range_map _ _ _ (by rw [hS]; exact hi)]

theorem emaCalculate_ok_parts (period : ℕ) (inputs : List IndicatorInput)
    (hlen : period ≤ inputs.length) :
    (resultsOf (emaCalculate period inputs)).length =
      inputs.length - period + 1 ∧
    ∀ i < inputs.length - period + 1,
      ((resultsOf (emaCalculate period inputs)).getD i default).timestamp =
        (inputs.getD (i + period - 1) default).timestamp := by
  have hS : (MathUtils.calculateEMA (inputs.map (fun x => x.close)) period).length
      = inputs.length - period + 1 := by
    rw [length_calculateEMA _ _ (by simpa using hlen), List.length_map]
  constructor
  · unfold emaCalculate
    rw [if_neg (by omega)]
    simp only [resultsOf, List.length_map, List.length_range, hS]
  · intro i hi
    unfold emaCalculate
    rw [if_neg (by omega)]
    simp only [resultsOf]
    rw [getD_range_map _ _ _ (by rw [hS]; exact hi)]

theorem length_calculateRSIValues (prices : List ℚ) (period : ℕ)
    (h : period + 1 ≤ prices.length) :
    (calculateRSIValues prices period).length = prices.length - period := by
  unfold calculateRSIValues
  rw [if_neg (by omega)]
  dsimp only
  rw [List.length_zipWith,
    length_calculateEMA _ _ (by simp [List.length_zipWith]; omega),
    length_calculateEMA _ _ (by simp [List.length_zipWith]; omega)]
  simp [List.length_zipWith]
  omega

theorem rsiCalculate_ok_parts (period : ℕ) (overbought oversold : ℚ)
    (inputs : List IndicatorInput) (hlen : period + 1 ≤ inputs.length) :
    (resultsOf (rsiCalculate period overbought oversold inputs)).length =
      inputs.length - (period + 1) + 1 ∧
    ∀ i < inputs.length - (period + 1) + 1,
      ((resultsOf (rsiCalculate period overbought oversold inputs)).getD i
        default).timestamp =
        (inputs.getD (i + (period + 1) - 1) default).timestamp := by
  have hR : (calculateRSIValues (inputs.map (fun x => x.close)) period).length
      = inputs.length - (period + 1) + 1 := by
    rw [length_calculateRSIValues _ _ (by simpa using hlen), List.length_map]
    omega
  constructor
  · unfold rsiCalculate
    rw [if_neg (by omega)]
    simp only [resultsOf, List.length_map, List.length_range, hR]
  · intro i hi
    unfold rsiCalculate
    rw [if_neg (by omega)]
    simp only [resultsOf]
    rw [getD_range_map _ _ _ (by rw [hR]; exact hi)]
    have hidx : i + (period + 1) - 1 = i + period := by omega
    rw [hidx]

theorem macdCalculate_ok_parts (fastPeriod slowPeriod signalPeriod : ℕ)
    (inputs : List IndicatorInput) (hfs : fastPeriod < slowPeriod)
    (hsig : 0 < signalPeriod)
    (hlen : slowPeriod + signalPeriod - 1 ≤ inputs.length) :
    (resultsOf (macdCalculate fastPeriod slowPeriod signalPeriod inputs)).length =
      inputs.length - (slowPeriod + signalPeriod - 1) + 1 ∧
    ∀ i < inputs.length - (slowPeriod + signalPeriod - 1) + 1,
      ((resultsOf (macdCalculate fastPeriod slowPeriod signalPeriod inputs)).getD
        i default).timestamp =
        (inputs.getD (i + (slowPeriod + signalPeriod - 1) - 1) default).timestamp := by
  have hH : (macdHistogramOf fastPeriod slowPeriod signalPeriod
      (inputs.map (fun x => x.close))).length =
      inputs.length - (slowPeriod + signalPeriod - 1) + 1 := by
    rw [length_macdHistogram _ _ _ _ hfs hsig (by simpa using hlen),
      List.length_map]
  constructor
  · unfold macdCalculate
    rw [if_neg (by omega)]
    simp only [resultsOf, List.length_map, List.length_range, hH]
  · intro i hi
    unfold macdCalculate
    rw [if_neg (by omega)]
    simp only [resultsOf]
    rw [getD_range_map _ _ _ (by rw [hH]; exact hi)]
    have hidx : inputs.length -
        (macdHistogramOf fastPeriod slowPeriod signalPeriod
          (inputs.map (fun x => x.close))).length + i =
        i + (slowPeriod + signalPeriod - 1) - 1 := by
      rw [hH]
      omega
    rw [hidx]

/-- C5: each indicator's calculate raises the insufficient-data error
exactly when the window is shorter than its minimum required length
(period for SMA and EMA, period+1 for RSI, slowPeriod+signalPeriod-1 for
MACD), and on a window at least that long it returns exactly
length - minRequired + 1 results, result i carrying the timestamp of
input i + minRequired - 1 (tail-aligned, the last result on the last
input). -/
theorem indicators_insufficiency_and_count (period : ℕ)
    (fastPeriod slowPeriod signalPeriod : ℕ) (overbought oversold : ℚ)
    (inputs : List IndicatorInput) (hp : 0 < period) (hf : 0 < fastPeriod)
    (hsig : 0 < signalPeriod) (hfs : fastPeriod < slowPeriod) :
    ((isError (smaCalculate period inputs) = true ↔ inputs.length < period) ∧
     (period ≤ inputs.length →
       (resultsOf (smaCalculate period inputs)).length =
         inputs.length - period + 1 ∧
       ∀ i < inputs.length - period + 1,
         ((resultsOf (smaCalculate period inputs)).getD i default).timestamp =
           (inputs.getD (i + period - 1) default).timestamp)) ∧
    ((isError (emaCalculate period inputs) = true ↔ inputs.length < period) ∧
     (period ≤ inputs.length →
       (resultsOf (emaCalculate period inputs)).length =
         inputs.length - period + 1 ∧
       ∀ i < inputs.length - period + 1,
         ((resultsOf (emaCalculate period inputs)).getD i default).timestamp =
           (inputs.getD (i + period - 1) default).timestamp)) ∧
    ((isError (rsiCalculate period overbought oversold inputs) = true ↔
        inputs.length < period + 1) ∧
     (period + 1 ≤ inputs.length →
       (resultsOf (rsiCalculate period overbought oversold inputs)).length =
         inputs.length - (period + 1) + 1 ∧
       ∀ i < inputs.length - (period + 1) + 1,
         ((resultsOf (rsiCalculate period overbought oversold inputs)).getD i
           default).timestamp =
           (inputs.getD (i + (period + 1) - 1) default).timestamp)) ∧
    ((isError (macdCalculate fastPeriod slowPeriod signalPeriod inputs) = true ↔
        inputs.length < slowPeriod + signalPeriod - 1) ∧
     (slowPeriod + signalPeriod - 1 ≤ inputs.length →
       (resultsOf (macdCalculate fastPeriod slowPeriod signalPeriod
         inputs)).length =
         inputs.length - (slowPeriod + signalPeriod - 1) + 1 ∧
       ∀ i < inputs.length - (slowPeriod + signalPeriod - 1) + 1,
         ((resultsOf (macdCalculate fastPeriod slowPeriod signalPeriod
           inputs)).getD i default).timestamp =
           (inputs.getD (i + (slowPeriod + signalPeriod - 1) - 1)
             default).timestamp)) := by
  refine ⟨⟨?_, fun h => smaCalculate_ok_parts period inputs h⟩,
          ⟨?_, fun h => emaCalculate_ok_parts period inputs h⟩,
          ⟨?_, fun h => rsiCalculate_ok_parts period overbought oversold inputs h⟩,
          ⟨?_, fun h => macdCalculate_ok_parts fastPeriod slowPeriod
            signalPeriod inputs hfs hsig h⟩⟩
  · unfold smaCalculate
    split_ifs with h <;> simp [isError, h]
  · unfold emaCalculate
    split_ifs with h <;> simp [isError, h]
  · unfold rsiCalculate
    split_ifs with h <;> simp [isError, h]
  · unfold macdCalculate
    dsimp only
    split_ifs with h <;> simp [isError, h]

/-- C5 witness: on a three-point window, SMA(2) and EMA(2) return two
results, RSI(2) and MACD(1,2,2) one result each, tail-aligned;
and the same window is insufficient for RSI period 3. -/
theorem indicators_insufficiency_and_count_witness :
    (resultsOf (smaCalculate 2 c5Inputs)).length = 2 ∧
    ((resultsOf (smaCalculate 2 c5Inputs)).getD 1 default).timestamp = 3 ∧
    (resultsOf (emaCalculate 2 c5Inputs)).length = 2 ∧
    (resultsOf (rsiCalculate 2 70 30 c5Inputs)).length = 1 ∧
    ((resultsOf (rsiCalculate 2 70 30 c5Inputs)).getD 0 default).timestamp = 3 ∧
    (resultsOf (macdCalculate 1 2 2 c5Inputs)).length = 1 ∧
    isError (rsiCalculate 3 70 30 c5Inputs) = true := by
  have h := indicators_insufficiency_and_count 2 1 2 2 70 30 c5Inputs
    (by norm_num) (by norm_num) (by norm_num) (by norm_num)
  have h3 := indicators_insufficiency_and_count 3 1 2 2 70 30 c5Inputs
    (by norm_num) (by norm_num) (by norm_num) (by norm_num)
  have hlen : c5Inputs.length = 3 := by simp [c5Inputs]
  refine ⟨?_, ?_, ?_, ?_, ?_, ?_, ?_⟩
  · simpa [hlen] using (h.1.2 (by norm_num [hlen])).1
  · simpa [c5Inputs, sampleInput] using
      (h.1.2 (by norm_num [hlen])).2 1 (by norm_num [hlen])
  · simpa [hlen] using (h.2.1.2 (by norm_num [hlen])).1
  · simpa [hlen] using (h.2.2.1.2 (by norm_num [hlen])).1
  · simpa [c5Inputs, sampleInput] using
      (h.2.2.1.2 (by norm_num [hlen])).2 0 (by norm_num [hlen])
  · simpa [hlen] using (h.2.2.2.2 (by norm_num [hlen])).1
  · exact h3.2.2.1.1.mpr (by norm_num [hlen])


/-! §21  Claim C6: MACD crossover flags. -/

theorem roundTo_nonpos_of_nonpos (x : ℚ) (n : ℕ) (h : x ≤ 0) :
    MathUtils.roundToDecimalPlaces x n ≤ 0 := by
  unfold MathUtils.roundToDecimalPlaces
  split_ifs with h0
  · have hx : x = 0 := le_antisymm h h0
    subst hx
    norm_num
  · push_neg at h0
    have h1 : (0:ℚ) ≤ -x * 10 ^ n + 1/2 := by
      have : (0:ℚ) < -x := by linarith
      positivity
    have h2 : (0:ℤ) ≤ ⌊-x * 10 ^ n + 1/2⌋ := Int.floor_nonneg.mpr h1
    have h3 : (0:ℚ) ≤ (⌊-x * 10 ^ n + 1/2⌋ : ℚ) / 10 ^ n := by
      apply div_nonneg _ (by positivity)
      exact_mod_cast h2
    linarith

theorem roundTo_nonneg_of_nonneg (x : ℚ) (n : ℕ) (h : 0 ≤ x) :
    0 ≤ MathUtils.roundToDecimalPlaces x n := by
  unfold MathUtils.roundToDecimalPlaces
  rw [if_pos h]
  have h1 : (0:ℚ) ≤ x * 10 ^ n + 1/2 := by positivity
  have h2 : (0:ℤ) ≤ ⌊x * 10 ^ n + 1/2⌋ := Int.floor_nonneg.mpr h1
  apply div_nonneg _ (by positivity)
  exact_mod_cast h2

theorem pos_of_roundTo_pos (x : ℚ) (n : ℕ)
    (h : 0 < MathUtils.roundToDecimalPlaces x n) : 0 < x := by
  by_contra hc
  push_neg at hc
  exact absurd h (not_lt.mpr (roundTo_nonpos_of_nonpos x n hc))

theorem neg_of_roundTo_neg (x : ℚ) (n : ℕ)
    (h : MathUtils.roundToDecimalPlaces x n < 0) : x < 0 := by
  by_contra hc
  push_neg at hc
  exact absurd h (not_lt.mpr (roundTo_nonneg_of_nonneg x n hc))

theorem macdCrossoverFlag_bullish_iff (hist : List ℚ) (i : ℕ) (r : ℚ) :
    macdCrossoverFlag hist i r = some Crossover.bullish ↔
      0 < i ∧ hist.getD (i - 1) 0 ≤ 0 ∧ 0 < r := by
  unfold macdCrossoverFlag
  split_ifs with h1 h2 h3 <;> simp_all

theorem macdCrossoverFlag_bearish_iff (hist : List ℚ) (i : ℕ) (r : ℚ) :
    macdCrossoverFlag hist i r = some Crossover.bearish ↔
      0 < i ∧ 0 ≤ hist.getD (i - 1) 0 ∧ r < 0 := by
  unfold macdCrossoverFlag
  by_cases h1 : 0 < i
  · rw [if_pos h1]
    dsimp only
    by_cases h2 : hist.getD (i - 1) 0 ≤ 0 ∧ 0 < r
    · rw [if_pos h2]
      constructor
      · intro hcontra
        exact Crossover.noConfusion (Option.some.inj hcontra)
      · rintro ⟨-, -, hr⟩
        linarith [h2.2]
    · rw [if_neg h2]
      by_cases h3 : 0 ≤ hist.getD (i - 1) 0 ∧ r < 0
      · rw [if_pos h3]
        constructor
        · intro _
          exact ⟨h1, h3.1, h3.2⟩
        · intro _
          rfl
      · rw [if_neg h3]
        constructor
        · intro hcontra
          exact Option.noConfusion hcontra
        · rintro ⟨-, hp, hr⟩
          exact absurd ⟨hp, hr⟩ h3
  · rw [if_neg h1]
    constructor
    · intro hcontra
      exact Option.noConfusion hcontra
    · rintro ⟨hi0, -, -⟩
      exact absurd hi0 h1

/-- C6 counterexample: a four-point window (prices scaled to the order of
1e-9) whose raw MACD(1,2,2) histogram goes from 0 at the first point to a
strictly positive value at the second: the sign transition the claim
requires to be flagged bullish, yet the produced result carries no
crossover flag, because the comparison uses the current histogram value
rounded to 8 decimal places, which collapses the tiny positive value to 0. -/
theorem c6_crossover_counterexample :
    (macdHistogramOf 1 2 2 (c6Inputs.map (fun x => x.close))).getD 0 0 ≤ 0 ∧
    0 < (macdHistogramOf 1 2 2 (c6Inputs.map (fun x => x.close))).getD 1 0 ∧
    2 ≤ (resultsOf (macdCalculate 1 2 2 c6Inputs)).length ∧
    ((resultsOf (macdCalculate 1 2 2 c6Inputs)).getD 1 default).crossover =
      none := by
  have hh : macdHistogramOf 1 2 2 (c6Inputs.map (fun x => x.close)) =
      [0, 1 / 1800000000] := by
    norm_num [macdHistogramOf, macdLineOf, macdSignalLineOf,
      MathUtils.calculateEMA, c6Inputs, c6Eps, sampleInput, List.scanl]
  refine ⟨by rw [hh]; norm_num, by rw [hh]; norm_num, ?_, ?_⟩ <;>
    norm_num [macdCalculate, resultsOf, macdHistogramOf, macdLineOf,
      macdSignalLineOf, MathUtils.calculateEMA, MathUtils.roundToDecimalPlaces,
      c6Inputs, c6Eps, sampleInput, List.scanl, List.range_succ,
      macdCrossoverFlag, Int.floor_eq_iff]

/-- C6 amended: in a MACD result sequence the crossover flag is bullish
exactly when the previous raw histogram entry is ≤ 0 and the current
histogram value rounded to 8 decimal places (the value the result reports)
is > 0, bearish exactly on the mirror condition, the first computed result
never carries a flag, and no flag repeats on two consecutive results for a
single transition. -/
theorem macd_crossover_flags (fastPeriod slowPeriod signalPeriod : ℕ)
    (inputs : List IndicatorInput) (rs : List MACDResult)
    (hok : macdCalculate fastPeriod slowPeriod signalPeriod inputs =
      Except.ok rs) (i : ℕ) (hi : i < rs.length) :
    ((rs.getD i default).crossover = some Crossover.bullish ↔
      0 < i ∧
      (macdHistogramOf fastPeriod slowPeriod signalPeriod
        (inputs.map (fun x => x.close))).getD (i - 1) 0 ≤ 0 ∧
      0 < MathUtils.roundToDecimalPlaces
        ((macdHistogramOf fastPeriod slowPeriod signalPeriod
          (inputs.map (fun x => x.close))).getD i 0) 8) ∧
    ((rs.getD i default).crossover = some Crossover.bearish ↔
      0 < i ∧
      0 ≤ (macdHistogramOf fastPeriod slowPeriod signalPeriod
        (inputs.map (fun x => x.close))).getD (i - 1) 0 ∧
      MathUtils.roundToDecimalPlaces
        ((macdHistogramOf fastPeriod slowPeriod signalPeriod
          (inputs.map (fun x => x.close))).getD i 0) 8 < 0) ∧
    (i = 0 → (rs.getD i default).crossover = none) ∧
    (∀ c, i + 1 < rs.length → (rs.getD i default).crossover = some c →
      (rs.getD (i + 1) default).crossover ≠ some c) := by
  unfold macdCalculate at hok
  dsimp only at hok
  split_ifs at hok with h
  injection hok with h2
  subst h2
  have hi2 : i < (macdHistogramOf fastPeriod slowPeriod signalPeriod
      (inputs.map (fun x => x.close))).length := by simpa using hi
  refine ⟨?_, ?_, ?_, ?_⟩
  · rw [getD_range_map _ _ _ hi2]
    exact macdCrossoverFlag_bullish_iff _ _ _
  · rw [getD_range_map _ _ _ hi2]
    exact macdCrossoverFlag_bearish_iff _ _ _
  · intro h0
    subst h0
    rw [getD_range_map _ _ _ hi2]
    rfl
  · intro c hi1 hc hc1
    have hi12 : i + 1 < (macdHistogramOf fastPeriod slowPeriod signalPeriod
        (inputs.map (fun x => x.close))).length := by simpa using hi1
    rw [getD_range_map _ _ _ hi2] at hc
    rw [getD_range_map _ _ _ hi12] at hc1
    cases c with
    | bullish =>
      have ha := (macdCrossoverFlag_bullish_iff _ _ _).mp hc
      have hb := (macdCrossoverFlag_bullish_iff _ _ _).mp hc1
      have hpos := pos_of_roundTo_pos _ _ ha.2.2
      have hle := hb.2.1
      simp only [Nat.add_sub_cancel] at hle
      linarith
    | bearish =>
      have ha := (macdCrossoverFlag_bearish_iff _ _ _).mp hc
      have hb := (macdCrossoverFlag_bearish_iff _ _ _).mp hc1
      have hneg := neg_of_roundTo_neg _ _ ha.2.2
      have hge := hb.2.1
      simp only [Nat.add_sub_cancel] at hge
      linarith

/-- C6 witness: MACD(1,2,2) on the three-point rising window yields one
result, and by the amended theorem its first (and only) result carries no
crossover flag. -/
theorem macd_crossover_flags_witness :
    ((resultsOf (macdCalculate 1 2 2 c5Inputs)).getD 0 default).crossover =
      none := by
  have hok : macdCalculate 1 2 2 c5Inputs =
      Except.ok (resultsOf (macdCalculate 1 2 2 c5Inputs)) := by
    norm_num [macdCalculate, resultsOf, macdHistogramOf, macdLineOf,
      macdSignalLineOf, MathUtils.calculateEMA, c5Inputs, sampleInput,
      List.scanl, List.range_succ]
  have hi : 0 < (resultsOf (macdCalculate 1 2 2 c5Inputs)).length := by
    norm_num [macdCalculate, resultsOf, macdHistogramOf, macdLineOf,
      macdSignalLineOf, MathUtils.calculateEMA, c5Inputs, sampleInput,
      List.scanl, List.range_succ]
  exact (macd_crossover_flags 1 2 2 c5Inputs _ hok 0 hi).2.2.1 rfl

end CryptoBot
